import Mathlib

/-!
Low-thrust trajectory search driver (`lowThrustTrajectoryExample.cpp`).

A shallow embedding of `main` of `libraryExamples/PaGMOEx/lowThrustTrajectoryExample.cpp`:
the phase-1 grid search over time of flight, departure date and number of revolutions,
and the phase-2 restricted grid search that evolves a PaGMO island at every grid point.

Modelling conventions.

* Times (`double`, seconds) are exact rationals.  Every grid quantity the program forms
  before the final division by `JULIAN_DAY` is an integer far below `2^53`, so the loop
  bounds are exact in IEEE arithmetic as well; only the conversion to days is rounded
  by the machine, and that rounding is not modelled.
* A cost is a `Double`: a finite rational, an infinity or a NaN, with the IEEE
  comparison `<` (false as soon as one side is NaN).
* `std::map< int, Eigen::Vector4d >` is an association list kept in ascending key order.
* Everything the driver calls but does not define (the shaping evaluator, the PaGMO
  island, the constant `JULIAN_DAY`) is a field of `Externals`.  The statements about
  the grid take `JULIAN_DAY` positive; a division by zero is not modelled.
* The shaping evaluator returns a `Double` and raises nothing; `wait_check` is the one
  call that can raise, and `main` has no handler.
-/

namespace LowThrust

/-! ## Values -/

/-- An IEEE `double` as far as the driver can observe it: a finite value, `+inf`, `-inf`
or a NaN. -/
inductive Double where
  | fin (q : ℚ)
  | posInf
  | negInf
  | nan
  deriving DecidableEq

/-- The C++ comparison `a < b` on doubles: false whenever one operand is a NaN. -/
def Double.lt : Double → Double → Bool
  | .fin a, .fin b => decide (a < b)
  | .fin _, .posInf => true
  | .negInf, .fin _ => true
  | .negInf, .posInf => true
  | _, _ => false

/-- Tells whether a double is finite (`std::isfinite`). -/
def Double.isFinite : Double → Bool
  | .fin _ => true
  | _ => false

/-- `Eigen::Vector4d`: the coefficients in the order of the comma initialiser. -/
abbrev Vector4d := List Double

/-- `std::map< int, Eigen::Vector4d >`, as the list of its entries in ascending key
order (the order in which the map is iterated and written). -/
abbrev ResultMap := List (Int × Vector4d)

/-- `m[ k ] = v` on a `std::map`: replaces the value of an existing key, otherwise
inserts the entry at its place in the key order. -/
def mapAssign {V : Type} : List (Int × V) → Int → V → List (Int × V)
  | [], k, v => [(k, v)]
  | (k', v') :: rest, k, v =>
    if k < k' then (k, v) :: (k', v') :: rest
    else if k = k' then (k, v) :: rest
    else (k', v') :: mapAssign rest k v

/-- `m.find( k )`: the value stored under a key, when there is one. -/
def mapFind {V : Type} : List (Int × V) → Int → Option V
  | [], _ => none
  | (k', v') :: rest, k => if k = k' then some v' else mapFind rest k

/-- Number of iterations of `for ( int i = 0 ; i <= bound ; i++ )` for a `double`
bound: none when the bound is negative, otherwise `i = 0, ..., floor( bound )`. -/
def loopCount (bound : ℚ) : Nat :=
  if bound < 0 then 0 else Int.toNat ⌊bound⌋ + 1

/-! ## External collaborators -/

/-- `pagmo::evolve_status`. -/
inductive EvolveStatus where
  | idle
  | busy
  | idle_error
  | busy_error
  deriving DecidableEq

/-- Everything `main` uses without defining it.  `σ` is the state of a `pagmo::island`
(its population together with whatever its worker thread will do next). -/
structure Externals (σ : Type) where
  /-- `physical_constants::JULIAN_DAY`, the length of a Julian day in seconds. -/
  JULIAN_DAY : ℚ
  /-- `HodographicShaping( ... ).computeDeltaV( )` of the lowest-order shaping problem
  built at lines 153-174 for a time of flight, a departure date and a number of
  revolutions. -/
  computeDeltaV : ℚ → ℚ → Nat → Double
  /-- The values held by `bestNumberOfRevolutions` and `currentBestDeltaV` (declared
  without initialiser at lines 158-159) before the revolution loop assigns them. -/
  uninitialised : Int × Double
  /-- `island isl{ algo, prob, 1024 }` for the optimisation problem of a time of flight
  and a departure date (lines 268-284). -/
  island : ℚ → ℚ → σ
  /-- `isl.evolve( )`. -/
  evolve : σ → σ
  /-- `isl.status( )`; the island can have moved on by the time the call returns. -/
  status : σ → EvolveStatus × σ
  /-- `isl.wait( )`. -/
  wait : σ → σ
  /-- `isl.wait_check( )`, which "raises errors". -/
  wait_check : σ → Except String σ
  /-- `isl.get_population( ).champion_f( )[ 0 ]`. -/
  champion_f : σ → Double
  /-- `hodographicShapingLowOrderOneRevolution.computeDeltaV( )` (lines 308-321) for a
  time of flight and a departure date. -/
  lowOrderDeltaV : ℚ → ℚ → Double

/-! ## Phase 1: grid search for the lowest-order solution -/

/-- `timeOfFlightBounds` (line 120). -/
def timeOfFlightBounds (JD : ℚ) : ℚ × ℚ := (500 * JD, 2000 * JD)

/-- `departureTimeBounds` (line 119). -/
def departureTimeBounds (JD : ℚ) : ℚ × ℚ := (7304.5 * JD, 10225.5 * JD)

/-- One pass of the body of the revolution loop (lines 176-189) on the pair
`( bestNumberOfRevolutions, currentBestDeltaV )`; `dv r` is what `computeDeltaV( )`
returns for `r` revolutions. -/
def revolutionStep (dv : Nat → Double) (st : Int × Double) (r : Nat) : Int × Double :=
  if r = 0 then (0, dv r)
  else if Double.lt (dv r) st.2 then ((r : Int), dv r)
  else st

/-- The revolution loop `for ( r = 0 ; r <= K ; r++ )` (line 162 has `K = 5`). -/
def revolutionSweep (K : Nat) (dv : Nat → Double) (init : Int × Double) : Int × Double :=
  (List.range (K + 1)).foldl (revolutionStep dv) init

/-- The `outputVector` of lines 193-194 for a grid point. -/
def outputVector (JD tof epoch : ℚ) (best : Int × Double) : Vector4d :=
  [Double.fin (tof / JD), Double.fin (epoch / JD), best.2, Double.fin (best.1 : ℚ)]

/-- The body of the departure-date loop (lines 151-196) on `( numberCases, results )`. -/
def gridPoint {σ : Type} (E : Externals σ) (K : Nat) (tof epoch : ℚ)
    (st : Int × ResultMap) : Int × ResultMap :=
  let best := revolutionSweep K (E.computeDeltaV tof epoch) E.uninitialised
  let numberCases := st.1 + 1
  (numberCases, mapAssign st.2 numberCases (outputVector E.JULIAN_DAY tof epoch best))

/-- The two nested grid loops (lines 136-199): `tofCount` and `epochCount` are the
numbers of iterations of the outer and inner loop, `tofAt i` and `epochAt j` the values
of `currentTOF` and `currentDepartureDate` at loop indices `i` and `j`. -/
def gridLoops {σ : Type} (E : Externals σ) (K : Nat) (tofCount : Nat) (tofAt : Nat → ℚ)
    (epochCount : Nat) (epochAt : Nat → ℚ) (st : Int × ResultMap) : Int × ResultMap :=
  (List.range tofCount).foldl
    (fun st i => (List.range epochCount).foldl
      (fun st j => gridPoint E K (tofAt i) (epochAt j) st) st) st

/-- Iterations of the outer loop of phase 1 (line 136). -/
def phase1TofCount (JD : ℚ) : Nat :=
  loopCount (((timeOfFlightBounds JD).2 - (timeOfFlightBounds JD).1) / (5 * JD))

/-- `currentTOF` of phase 1 (line 138). -/
def phase1TOF (JD : ℚ) (i : Nat) : ℚ := (timeOfFlightBounds JD).1 + i * 5 * JD

/-- `currentDepartureDate` of phase 1 (line 151). -/
def phase1DepartureDate (JD : ℚ) (j : Nat) : ℚ :=
  (departureTimeBounds JD).1 +
    j * ((departureTimeBounds JD).2 - (departureTimeBounds JD).1) / 400

/-- Phase 1 (lines 131-199): `hodographicShapingResults` after the grid search;
`numberCases` starts at 0 and the inner loop runs for `j = 0, ..., 400`. -/
def phase1 {σ : Type} (E : Externals σ) : ResultMap :=
  (gridLoops E 5 (phase1TofCount E.JULIAN_DAY) (phase1TOF E.JULIAN_DAY)
    (400 + 1) (phase1DepartureDate E.JULIAN_DAY) (0, [])).2

/-- The grid search with everything the source fixes left open: bounds and step on both
axes, enumerated as the time-of-flight loops of lines 136-138 and 230-232 do
(`i <= ( max - min ) / step`, value `min + i * step`), and revolution range `0..K`. -/
def gridSearch {σ : Type} (E : Externals σ) (K : Nat) (tofMin tofMax tofStep : ℚ)
    (epochMin epochMax epochStep : ℚ) : ResultMap :=
  (gridLoops E K (loopCount ((tofMax - tofMin) / tofStep)) (fun i => tofMin + i * tofStep)
    (loopCount ((epochMax - epochMin) / epochStep)) (fun j => epochMin + j * epochStep)
    (0, [])).2

/-! ## Phase 2: restricted grid search with an evolved island -/

/-- A call the driver makes on the island, as it appears in the order of execution;
a `status` call is logged with the status it returned. -/
inductive IslandCall where
  | evolve
  | status (s : EvolveStatus)
  | wait
  | wait_check
  | champion_f
  deriving DecidableEq

/-- Why control left the program before `return 0`: an exception nobody catches
(`main` has no `try` block), or a `while` loop that is still spinning when the bound on
the number of its iterations that the model follows is reached. -/
inductive Abort where
  | raised (what : String)
  | outOfFuel
  deriving DecidableEq

/-- The island of one grid point while the driver works on it: its state, the calls made
so far and, once control has left the normal path, the reason. -/
structure IslandRun (σ : Type) where
  isl : σ
  calls : List IslandCall
  abort : Option Abort

/-- The condition of the `while` of lines 290-291,
`isl.status( ) != idle && isl.status( ) != idle_error`: the second call is made only
when the first did not return `idle`. -/
def waitCondition {σ : Type} (E : Externals σ) (run : IslandRun σ) : Bool × IslandRun σ :=
  let s1 := E.status run.isl
  if s1.1 = EvolveStatus.idle then
    (false, { isl := s1.2, calls := run.calls ++ [IslandCall.status s1.1], abort := run.abort })
  else
    let s2 := E.status s1.2
    (decide (s2.1 ≠ EvolveStatus.idle_error),
      { isl := s2.2,
        calls := run.calls ++ [IslandCall.status s1.1, IslandCall.status s2.1],
        abort := run.abort })

/-- The `while` loop of lines 290-294, followed for at most `fuel` calls of `wait( )`. -/
def waitLoop {σ : Type} (E : Externals σ) : Nat → IslandRun σ → IslandRun σ
  | 0, run =>
    let c := waitCondition E run
    if c.1 then { isl := c.2.isl, calls := c.2.calls, abort := some Abort.outOfFuel } else c.2
  | fuel + 1, run =>
    let c := waitCondition E run
    if c.1 then
      waitLoop E fuel
        { isl := E.wait c.2.isl, calls := c.2.calls ++ [IslandCall.wait], abort := c.2.abort }
    else c.2

/-- One pass of the body of the evolve loop (lines 289-295): `evolve`, the `while`
loop, then `wait_check`, whose exception leaves `main`. -/
def evolveRound {σ : Type} (E : Externals σ) (fuel : Nat) (run : IslandRun σ) : IslandRun σ :=
  match run.abort with
  | some _ => run
  | none =>
    let waited := waitLoop E fuel
      { isl := E.evolve run.isl, calls := run.calls ++ [IslandCall.evolve], abort := none }
    match waited.abort with
    | some _ => waited
    | none =>
      match E.wait_check waited.isl with
      | Except.error what =>
        { isl := waited.isl, calls := waited.calls ++ [IslandCall.wait_check],
          abort := some (Abort.raised what) }
      | Except.ok isl =>
        { isl := isl, calls := waited.calls ++ [IslandCall.wait_check], abort := none }

/-- The evolve loop `for( int i = 0 ; i < 10; i++ )` of lines 287-297. -/
def evolveLoop {σ : Type} (E : Externals σ) (fuel : Nat) (run : IslandRun σ) : IslandRun σ :=
  (List.range 10).foldl (fun run _ => evolveRound E fuel run) run

/-- The optimisation of one grid point (lines 280-297): a fresh island, then the evolve
loop. -/
def optimise {σ : Type} (E : Externals σ) (fuel : Nat) (tof epoch : ℚ) : IslandRun σ :=
  evolveLoop E fuel { isl := E.island tof epoch, calls := [], abort := none }

/-- The variables of phase 2 that outlive a grid point: `numberCases`,
`hodographicShapingResultsHigherOrder`, `hodographicShapingResultsLowResultOneRevolution`,
and the reason why control left the loops, if it did. -/
structure Phase2State where
  numberCases : Int
  higherOrder : ResultMap
  lowOrder : ResultMap
  abort : Option Abort

/-- The `outputVector` of lines 302-303 and 320-321: the last coefficient is the
literal `1`. -/
def outputVector2 (JD tof epoch : ℚ) (deltaV : Double) : Vector4d :=
  [Double.fin (tof / JD), Double.fin (epoch / JD), deltaV, Double.fin 1]

/-- The body of the departure-date loop of phase 2 (lines 260-324). -/
def phase2Point {σ : Type} (E : Externals σ) (fuel : Nat) (tof epoch : ℚ)
    (st : Phase2State) : Phase2State :=
  match st.abort with
  | some _ => st
  | none =>
    let run := optimise E fuel tof epoch
    match run.abort with
    | some a =>
      { numberCases := st.numberCases, higherOrder := st.higherOrder,
        lowOrder := st.lowOrder, abort := some a }
    | none =>
      let currentBestDeltaV := E.champion_f run.isl
      { numberCases := st.numberCases + 1,
        higherOrder := mapAssign st.higherOrder st.numberCases
          (outputVector2 E.JULIAN_DAY tof epoch currentBestDeltaV),
        lowOrder := mapAssign st.lowOrder st.numberCases
          (outputVector2 E.JULIAN_DAY tof epoch (E.lowOrderDeltaV tof epoch)),
        abort := none }

/-- Iterations of the outer loop of phase 2 (line 230). -/
def phase2TofCount (JD : ℚ) : Nat :=
  loopCount ((900 * JD - (timeOfFlightBounds JD).1) / (20 * JD))

/-- `currentTOF` of phase 2 (line 232). -/
def phase2TOF (JD : ℚ) (i : Nat) : ℚ := (timeOfFlightBounds JD).1 + i * 20 * JD

/-- Iterations of the inner loop of phase 2 (line 258). -/
def phase2EpochCount (JD : ℚ) : Nat :=
  loopCount ((7379.5 * JD - (departureTimeBounds JD).1) / (15 * JD))

/-- `currentDepartureDate` of phase 2 (lines 260-261). -/
def phase2DepartureDate (JD : ℚ) (j : Nat) : ℚ := (departureTimeBounds JD).1 + j * 15 * JD

/-- Phase 2 (lines 214-327): `numberCases` is reset to 0 and both maps start empty. -/
def phase2 {σ : Type} (E : Externals σ) (fuel : Nat) : Phase2State :=
  (List.range (phase2TofCount E.JULIAN_DAY)).foldl
    (fun st i => (List.range (phase2EpochCount E.JULIAN_DAY)).foldl
      (fun st j => phase2Point E fuel (phase2TOF E.JULIAN_DAY i)
        (phase2DepartureDate E.JULIAN_DAY j) st) st)
    { numberCases := 0, higherOrder := [], lowOrder := [], abort := none }

/-! ## The whole program -/

/-- How `main` ended: `return 0`, or one of the ways of `Abort`. -/
inductive Exit where
  | returned (code : Int)
  | aborted (a : Abort)
  deriving DecidableEq

/-- What a run of `main` leaves behind: the calls of `writeDataMapToTextFile` in the
order they were made (file name and map written), and how the program ended. -/
structure Run where
  written : List (String × ResultMap)
  exit : Exit

/-- `main` (lines 28-347): phase 1, its output file, phase 2, its two output files. -/
def main {σ : Type} (E : Externals σ) (fuel : Nat) : Run :=
  let baseline := [("hodographicShapingGridSearch.dat", phase1 E)]
  let st := phase2 E fuel
  match st.abort with
  | some a => { written := baseline, exit := Exit.aborted a }
  | none =>
    { written := baseline ++
        [("hodographicShapingOneRevolution.dat", st.lowOrder),
         ("hodographicShapingResultsHigherOrder.dat", st.higherOrder)],
      exit := Exit.returned 0 }

/-! ## The order of the calls on the island -/

/-- The calls made on the island of one phase-2 grid point (lines 284-300) in the order
of execution: those of the evolve loop and, when the loop is left by its end, the read
of the champion at line 300. -/
def pointCalls {σ : Type} (E : Externals σ) (fuel : Nat) (tof epoch : ℚ) : List IslandCall :=
  match (optimise E fuel tof epoch).abort with
  | some _ => (optimise E fuel tof epoch).calls
  | none => (optimise E fuel tof epoch).calls ++ [IslandCall.champion_f]

/-- A status in which no evolution is running: `idle` or `idle_error`. -/
def isQuiet (s : EvolveStatus) : Bool :=
  decide (s = EvolveStatus.idle) || decide (s = EvolveStatus.idle_error)

/-- A call that only polls the island: `status( )` or `wait( )`. -/
def isPoll : IslandCall → Bool
  | IslandCall.status _ => true
  | IslandCall.wait => true
  | _ => false

/-- Where a sequence of calls stands with respect to the rounds: nothing called yet, a
round started and not yet seen quiet, a round last seen quiet, a round checked by
`wait_check`, the champion read. -/
inductive RoundPhase where
  | fresh
  | running
  | quiet
  | checked
  | done
  deriving DecidableEq

/-- The calls a generation barrier allows in each phase, and the phase they lead to:
`evolve` only before the first round or after a `wait_check`, `wait_check` only after a
quiet status, the champion only after a `wait_check`, nothing after the champion. -/
def barrierStep : RoundPhase → IslandCall → Option RoundPhase
  | RoundPhase.fresh, IslandCall.evolve => some RoundPhase.running
  | RoundPhase.checked, IslandCall.evolve => some RoundPhase.running
  | RoundPhase.checked, IslandCall.champion_f => some RoundPhase.done
  | RoundPhase.running, IslandCall.status s =>
    some (if isQuiet s then RoundPhase.quiet else RoundPhase.running)
  | RoundPhase.quiet, IslandCall.status s =>
    some (if isQuiet s then RoundPhase.quiet else RoundPhase.running)
  | RoundPhase.running, IslandCall.wait => some RoundPhase.running
  | RoundPhase.quiet, IslandCall.wait => some RoundPhase.running
  | RoundPhase.quiet, IslandCall.wait_check => some RoundPhase.checked
  | _, _ => none

/-- The phase a sequence of calls leads to from a given phase, when every call of it is
allowed where it stands. -/
def barrierRun : RoundPhase → List IslandCall → Option RoundPhase
  | p, [] => some p
  | p, c :: rest =>
    match barrierStep p c with
    | none => none
    | some q => barrierRun q rest

/-- The generation barrier, said of a sequence of calls.  (1) An `evolve` is the first
call or comes right after a `wait_check` that came right after a status call returning
`idle` or `idle_error`.  (2) A `wait_check` comes right after a status call returning
`idle` or `idle_error`, and between it and the `evolve` of its round there are only
polling calls.  (3) The read of the champion is the last call and comes right after a
`wait_check`. -/
def GenerationBarrier (l : List IslandCall) : Prop :=
  (∀ pre post, l = pre ++ IslandCall.evolve :: post →
    pre = [] ∨ ∃ pre' s, pre = pre' ++ [IslandCall.status s, IslandCall.wait_check] ∧
      isQuiet s = true) ∧
  (∀ pre post, l = pre ++ IslandCall.wait_check :: post →
    ∃ a b s, pre = a ++ IslandCall.evolve :: (b ++ [IslandCall.status s]) ∧
      isQuiet s = true ∧ ∀ c ∈ b, isPoll c = true) ∧
  (∀ pre post, l = pre ++ IslandCall.champion_f :: post →
    post = [] ∧ ∃ pre', pre = pre' ++ [IslandCall.wait_check])

/-- What a sequence of calls that leads to a phase looks like at its end. -/
def PhaseShape : RoundPhase → List IslandCall → Prop
  | RoundPhase.fresh, l => l = []
  | RoundPhase.running, l =>
    ∃ a b, l = a ++ IslandCall.evolve :: b ∧ ∀ c ∈ b, isPoll c = true
  | RoundPhase.quiet, l =>
    ∃ a b s, l = a ++ IslandCall.evolve :: (b ++ [IslandCall.status s]) ∧
      isQuiet s = true ∧ ∀ c ∈ b, isPoll c = true
  | RoundPhase.checked, l =>
    ∃ pre s, l = pre ++ [IslandCall.status s, IslandCall.wait_check] ∧ isQuiet s = true
  | RoundPhase.done, l => ∃ pre, l = pre ++ [IslandCall.wait_check, IslandCall.champion_f]

/-! ## Stand-ins for the collaborators -/

/-- Collaborators for examples: the cost of phase 1 depends on the number of revolutions
only, the island is idle whenever it is asked, and `wait_check` has a fixed outcome. -/
def constantExternals (JD : ℚ) (dv : Nat → Double) (check : Except String Unit) :
    Externals Unit :=
  { JULIAN_DAY := JD
    computeDeltaV := fun _ _ r => dv r
    uninitialised := (7, Double.fin (-1))
    island := fun _ _ => ()
    evolve := fun s => s
    status := fun s => (EvolveStatus.idle, s)
    wait := fun s => s
    wait_check := fun _ => check
    champion_f := fun _ => Double.fin 0
    lowOrderDeltaV := fun _ _ => Double.fin 0 }

/-- The evaluator of scenario A: the cost is the number of revolutions. -/
def costIsRevolutionCount (r : Nat) : Double := Double.fin (r : ℚ)

/-- The evaluator of scenario B: no cost (a NaN) for revolution 0, 5.0 otherwise. -/
def failsAtZero (r : Nat) : Double := if r = 0 then Double.nan else Double.fin 5

/-- An evaluator that fails (returns a NaN) for every number of revolutions. -/
def alwaysFails (_ : Nat) : Double := Double.nan

/-- An evaluator with failures after revolution 0: 3.0 for revolution 0, a NaN for
revolution 1, 1.0 for revolution 2 and `+inf` beyond. -/
def failsAtOne (r : Nat) : Double :=
  if r = 0 then Double.fin 3 else if r = 1 then Double.nan
  else if r = 2 then Double.fin 1 else Double.posInf

/-! ## Closed forms used in the statements -/

/-- The record phase 1 computes at a grid point: the `outputVector` of the outcome of
the revolution loop there. -/
def gridRecord {σ : Type} (E : Externals σ) (K : Nat) (tof epoch : ℚ) : Vector4d :=
  outputVector E.JULIAN_DAY tof epoch
    (revolutionSweep K (E.computeDeltaV tof epoch) E.uninitialised)

/-- The first `n` entries of the grid search in key order: entry number `k` (from 0) has
key `k + 1` and is the record of outer index `k / epochCount` and inner index
`k % epochCount`. -/
def gridEntries {σ : Type} (E : Externals σ) (K : Nat) (tofAt : Nat → ℚ)
    (epochCount : Nat) (epochAt : Nat → ℚ) (n : Nat) : ResultMap :=
  (List.range n).map
    (fun (k : Nat) => ((k : Int) + 1, gridRecord E K (tofAt (k / epochCount)) (epochAt (k % epochCount))))

/-- The record phase 2 stores in `hodographicShapingResultsHigherOrder` at a grid point
whose optimisation ran to its end. -/
def highRecord {σ : Type} (E : Externals σ) (fuel : Nat) (tof epoch : ℚ) : Vector4d :=
  outputVector2 E.JULIAN_DAY tof epoch (E.champion_f (optimise E fuel tof epoch).isl)

/-- The record phase 2 stores in `hodographicShapingResultsLowResultOneRevolution`. -/
def lowRecord {σ : Type} (E : Externals σ) (tof epoch : ℚ) : Vector4d :=
  outputVector2 E.JULIAN_DAY tof epoch (E.lowOrderDeltaV tof epoch)

/-- The state of phase 2 once the first `n` grid points, in the order of the loops, have
been worked through without leaving the normal path: entry number `k` has key `k`. -/
def phase2Done {σ : Type} (E : Externals σ) (fuel : Nat) (n : Nat) : Phase2State :=
  { numberCases := (n : Int),
    higherOrder := (List.range n).map (fun (k : Nat) => ((k : Int),
      highRecord E fuel (phase2TOF E.JULIAN_DAY (k / phase2EpochCount E.JULIAN_DAY))
        (phase2DepartureDate E.JULIAN_DAY (k % phase2EpochCount E.JULIAN_DAY)))),
    lowOrder := (List.range n).map (fun (k : Nat) => ((k : Int),
      lowRecord E (phase2TOF E.JULIAN_DAY (k / phase2EpochCount E.JULIAN_DAY))
        (phase2DepartureDate E.JULIAN_DAY (k % phase2EpochCount E.JULIAN_DAY)))),
    abort := none }

/-- The state of `phase2Done` with control gone for the reason `a`. -/
def phase2Stopped {σ : Type} (E : Externals σ) (fuel : Nat) (n : Nat) (a : Abort) :
    Phase2State :=
  { numberCases := (phase2Done E fuel n).numberCases,
    higherOrder := (phase2Done E fuel n).higherOrder,
    lowOrder := (phase2Done E fuel n).lowOrder,
    abort := some a }

end LowThrust

/-!
The command line of `tudat` (`SatellitePropagatorExamples/tudat.cpp`).

`printHelp` prints the usage text and ends the process with `exit( EXIT_FAILURE )`, so
nothing after a call of it is executed.  `argv` is a list of strings, the program name
first.
-/

namespace Tudat

/-- What a run of `main` comes to: the usage text and `exit( EXIT_FAILURE )` without a
`Simulation` object ever being constructed (`printHelp`, lines 15-29), or a simulation
constructed from `inputPath`, run and exported (lines 62-66). -/
inductive Outcome where
  | usage
  | simulation (inputPath : String)
  deriving DecidableEq

/-- Tells whether the characters `name` are a beginning of the characters `full`: GNU
`getopt_long` accepts an abbreviation of a long option name. -/
def abbreviates : List Char → List Char → Bool
  | [], _ => true
  | _ :: _, [] => false
  | a :: name, b :: full => decide (a = b) && abbreviates name full

/-- Modelled from the `getopt_long(3)` manual, since the C library is not part of the
repository: what the call of line 43 returns the first time, on the arguments after the
program name, with the short options `"h"` and the single long option `help` that takes
no argument, in the default mode that passes non-option arguments over.  `--` ends the
scan (`-1`); an argument that begins with `-` and is longer than that is an option
element and yields `'h'` (104) for `-h...`, `--help` and its abbreviations, `'?'` (63)
for anything else; an argument that is `-` alone or does not begin with `-` is passed
over; `-1` when the arguments are used up. -/
def getopt_long : List String → Int
  | [] => -1
  | arg :: rest =>
    if arg = "--" then -1
    else
      match arg.data with
      | '-' :: '-' :: name =>
        if abbreviates name "help".data then 104 else 63
      | '-' :: c :: _ => if c = 'h' then 104 else 63
      | _ => getopt_long rest

/-- `main` of `tudat.cpp` (lines 32-67).  Every case of the `switch` (`'h'`, `'?'`,
`default`) calls `printHelp`, which does not return: the body of the `while` loop runs at
most once and `optionCount++` is never reached, so `optionCount` is 0 where line 55 reads
it.  When the loop has met no option and there is one argument, `getopt_long` has left
`arguments` in place, and `arguments[ argumentCount - 1 ]` is the last of the list. -/
def main (arguments : List String) : Outcome :=
  let argumentCount : Int := arguments.length
  let optionCount : Int := 0
  if getopt_long (arguments.drop 1) ≠ -1 then Outcome.usage
  else
    let nonOptionArgumentCount : Int := argumentCount - optionCount - 1
    if nonOptionArgumentCount > 1 then Outcome.usage
    else
      Outcome.simulation
        (if nonOptionArgumentCount = 1 then arguments.getD (arguments.length - 1) "" else "")

/-- Tells whether an argument is an option element for `getopt_long`: it begins with
`-` and is longer than that. -/
def isOptionElement (arg : String) : Bool :=
  match arg.data with
  | '-' :: _ :: _ => true
  | _ => false

/-- The options among the arguments after the program name, as the usage text
`tudat [options] [path]` and `getopt_long` understand them: the option elements before
a `--`. -/
def optionsOf : List String → List String
  | [] => []
  | arg :: rest =>
    if arg = "--" then []
    else if isOptionElement arg then arg :: optionsOf rest
    else optionsOf rest

/-- The non-option arguments among the arguments after the program name: those that are
not option elements, and everything after a `--`, which itself is neither an option nor
an argument. -/
def nonOptionsOf : List String → List String
  | [] => []
  | arg :: rest =>
    if arg = "--" then rest
    else if isOptionElement arg then nonOptionsOf rest
    else arg :: nonOptionsOf rest

/-- What the usage text promises for a command line: the usage when an option is present
or more than one non-option argument is given, otherwise a simulation from the single
non-option argument, or from the empty path when there is none. -/
def usageText (arguments : List String) : Outcome :=
  match optionsOf (arguments.drop 1), nonOptionsOf (arguments.drop 1) with
  | [], [] => Outcome.simulation ""
  | [], [path] => Outcome.simulation path
  | _, _ => Outcome.usage

end Tudat

namespace LowThrust

/-! ## Lemmas on maps and loop counts -/

theorem mapAssign_of_keys_lt {V : Type} (m : List (Int × V)) (k : Int) (v : V)
    (h : ∀ p ∈ m, p.1 < k) : mapAssign m k v = m ++ [(k, v)] := by
  induction m with
  | nil => rfl
  | cons p rest ih =>
    obtain ⟨k', v'⟩ := p
    have hk : k' < k := h (k', v') (List.mem_cons_self _ _)
    have hrest : ∀ q ∈ rest, q.1 < k := fun q hq => h q (List.mem_cons_of_mem _ hq)
    simp only [mapAssign, List.cons_append]
    rw [if_neg (by omega), if_neg (by omega), ih hrest]

theorem mem_mapAssign {V : Type} (m : List (Int × V)) (k : Int) (v : V) (p : Int × V)
    (h : p ∈ mapAssign m k v) : p = (k, v) ∨ p ∈ m := by
  induction m with
  | nil => simpa [mapAssign] using h
  | cons q rest ih =>
    obtain ⟨k', v'⟩ := q
    simp only [mapAssign] at h
    split_ifs at h with h1 h2
    · rcases List.mem_cons.1 h with h | h
      · exact Or.inl h
      · exact Or.inr h
    · rcases List.mem_cons.1 h with h | h
      · exact Or.inl h
      · exact Or.inr (List.mem_cons_of_mem _ h)
    · rcases List.mem_cons.1 h with h | h
      · exact Or.inr (h ▸ List.mem_cons_self _ _)
      · rcases ih h with h | h
        · exact Or.inl h
        · exact Or.inr (List.mem_cons_of_mem _ h)

theorem map_mapAssign {V W : Type} (f : V → W) (m : List (Int × V)) (k : Int) (v : V) :
    (mapAssign m k v).map (fun p => (p.1, f p.2)) =
      mapAssign (m.map (fun p => (p.1, f p.2))) k (f v) := by
  induction m with
  | nil => rfl
  | cons q rest ih =>
    obtain ⟨k', v'⟩ := q
    simp only [mapAssign, List.map_cons]
    split_ifs <;> simp [ih]

theorem loopCount_natCast (n : Nat) : loopCount (n : ℚ) = n + 1 := by
  unfold loopCount
  rw [if_neg (by simp)]
  simp

theorem lt_loopCount_iff (bound : ℚ) (i : Nat) : i < loopCount bound ↔ (i : ℚ) ≤ bound := by
  unfold loopCount
  split_ifs with h
  · constructor
    · intro hi; omega
    · intro hi
      have : (0 : ℚ) ≤ (i : ℚ) := Nat.cast_nonneg i
      linarith
  · have h0 : (0 : ℚ) ≤ bound := not_lt.1 h
    have hf : 0 ≤ ⌊bound⌋ := Int.floor_nonneg.2 h0
    rw [Nat.lt_succ_iff, ← Int.ofNat_le, Int.toNat_of_nonneg hf, Int.le_floor]
    simp

theorem phase1TofCount_eq (JD : ℚ) (hJD : 0 < JD) : phase1TofCount JD = 301 := by
  have h : ((2000 * JD - 500 * JD) / (5 * JD) : ℚ) = ((300 : Nat) : ℚ) := by
    field_simp
    ring
  simp only [phase1TofCount, timeOfFlightBounds]
  rw [h, loopCount_natCast]

theorem phase2TofCount_eq (JD : ℚ) (hJD : 0 < JD) : phase2TofCount JD = 21 := by
  have h : ((900 * JD - 500 * JD) / (20 * JD) : ℚ) = ((20 : Nat) : ℚ) := by
    field_simp
    ring
  simp only [phase2TofCount, timeOfFlightBounds]
  rw [h, loopCount_natCast]

theorem phase2EpochCount_eq (JD : ℚ) (hJD : 0 < JD) : phase2EpochCount JD = 6 := by
  have h : ((7379.5 * JD - 7304.5 * JD) / (15 * JD) : ℚ) = ((5 : Nat) : ℚ) := by
    field_simp
    ring
  simp only [phase2EpochCount, departureTimeBounds]
  rw [h, loopCount_natCast]

/-! ## The grid loops in closed form -/

theorem gridEntries_succ {σ : Type} (E : Externals σ) (K : Nat) (tofAt : Nat → ℚ)
    (epochCount : Nat) (epochAt : Nat → ℚ) (n : Nat) :
    gridEntries E K tofAt epochCount epochAt (n + 1) =
      gridEntries E K tofAt epochCount epochAt n ++
        [((n : Int) + 1, gridRecord E K (tofAt (n / epochCount)) (epochAt (n % epochCount)))] := by
  simp [gridEntries, List.range_succ]

theorem gridEntries_keys_lt {σ : Type} (E : Externals σ) (K : Nat) (tofAt : Nat → ℚ)
    (epochCount : Nat) (epochAt : Nat → ℚ) (n : Nat) :
    ∀ p ∈ gridEntries E K tofAt epochCount epochAt n, p.1 < (n : Int) + 1 := by
  intro p hp
  simp only [gridEntries, List.mem_map, List.mem_range] at hp
  obtain ⟨k, hk, rfl⟩ := hp
  simp only
  omega

theorem gridLoops_inner {σ : Type} (E : Externals σ) (K : Nat) (tofAt : Nat → ℚ)
    (epochCount : Nat) (epochAt : Nat → ℚ) (i n : Nat) (hn : n ≤ epochCount) :
    (List.range n).foldl (fun st j => gridPoint E K (tofAt i) (epochAt j) st)
        (((i * epochCount : Nat) : Int), gridEntries E K tofAt epochCount epochAt (i * epochCount)) =
      (((i * epochCount + n : Nat) : Int),
        gridEntries E K tofAt epochCount epochAt (i * epochCount + n)) := by
  induction n with
  | zero => simp
  | succ n ih =>
    have hlt : n < epochCount := hn
    rw [List.range_succ, List.foldl_append, ih (Nat.le_of_lt hlt)]
    simp only [List.foldl_cons, List.foldl_nil, gridPoint]
    have hdiv : (i * epochCount + n) / epochCount = i := by
      rw [Nat.mul_comm, Nat.mul_add_div (by omega), Nat.div_eq_of_lt hlt, Nat.add_zero]
    have hmod : (i * epochCount + n) % epochCount = n := by
      rw [Nat.mul_comm, Nat.mul_add_mod, Nat.mod_eq_of_lt hlt]
    rw [mapAssign_of_keys_lt _ _ _ (gridEntries_keys_lt E K tofAt epochCount epochAt _),
      ← Nat.add_assoc, gridEntries_succ, hdiv, hmod]
    have hc : ((i * epochCount + n : Nat) : Int) + 1 = ((i * epochCount + n + 1 : Nat) : Int) := by
      push_cast; ring
    rw [hc]
    rfl

theorem gridLoops_eq {σ : Type} (E : Externals σ) (K : Nat) (tofCount : Nat)
    (tofAt : Nat → ℚ) (epochCount : Nat) (epochAt : Nat → ℚ) :
    gridLoops E K tofCount tofAt epochCount epochAt (0, []) =
      (((tofCount * epochCount : Nat) : Int),
        gridEntries E K tofAt epochCount epochAt (tofCount * epochCount)) := by
  unfold gridLoops
  induction tofCount with
  | zero => simp [gridEntries]
  | succ n ih =>
    rw [List.range_succ, List.foldl_append, ih]
    simp only [List.foldl_cons, List.foldl_nil]
    rw [gridLoops_inner E K tofAt epochCount epochAt n epochCount (Nat.le_refl _)]
    have : n * epochCount + epochCount = (n + 1) * epochCount := by ring
    rw [this]

theorem phase1_eq {σ : Type} (E : Externals σ) (hJD : 0 < E.JULIAN_DAY) :
    phase1 E = gridEntries E 5 (phase1TOF E.JULIAN_DAY) 401
      (phase1DepartureDate E.JULIAN_DAY) 120701 := by
  unfold phase1
  rw [phase1TofCount_eq _ hJD, gridLoops_eq]

/-! ## Looking entries up -/

theorem mapFind_append {V : Type} (a b : List (Int × V)) (k : Int) :
    mapFind (a ++ b) k = match mapFind a k with
      | some v => some v
      | none => mapFind b k := by
  induction a with
  | nil => rfl
  | cons p rest ih =>
    obtain ⟨k', v'⟩ := p
    simp only [List.cons_append, mapFind]
    split_ifs with h
    · rfl
    · exact ih

theorem mapFind_eq_none {V : Type} (m : List (Int × V)) (k : Int)
    (h : ∀ p ∈ m, p.1 < k) : mapFind m k = none := by
  induction m with
  | nil => rfl
  | cons p rest ih =>
    obtain ⟨k', v'⟩ := p
    have hk : k' < k := h (k', v') (List.mem_cons_self _ _)
    simp only [mapFind]
    rw [if_neg (by omega)]
    exact ih (fun q hq => h q (List.mem_cons_of_mem _ hq))

theorem mapFind_map {V W : Type} (f : V → W) (m : List (Int × V)) (k : Int) :
    mapFind (m.map (fun p => (p.1, f p.2))) k = (mapFind m k).map f := by
  induction m with
  | nil => rfl
  | cons p rest ih =>
    obtain ⟨k', v'⟩ := p
    simp only [List.map_cons, mapFind]
    split_ifs with h
    · rfl
    · exact ih

theorem mapFind_gridEntries {σ : Type} (E : Externals σ) (K : Nat) (tofAt : Nat → ℚ)
    (epochCount : Nat) (epochAt : Nat → ℚ) (n k : Nat) (hk : k < n) :
    mapFind (gridEntries E K tofAt epochCount epochAt n) ((k : Int) + 1) =
      some (gridRecord E K (tofAt (k / epochCount)) (epochAt (k % epochCount))) := by
  induction n with
  | zero => omega
  | succ n ih =>
    rw [gridEntries_succ, mapFind_append]
    by_cases hlt : k < n
    · rw [ih hlt]
    · have hkn : k = n := by omega
      subst hkn
      rw [mapFind_eq_none _ _ (gridEntries_keys_lt E K tofAt epochCount epochAt k)]
      simp [mapFind]

theorem getElem?_gridEntries {σ : Type} (E : Externals σ) (K : Nat) (tofAt : Nat → ℚ)
    (epochCount : Nat) (epochAt : Nat → ℚ) (n k : Nat) (hk : k < n) :
    (gridEntries E K tofAt epochCount epochAt n)[k]? =
      some ((k : Int) + 1,
        gridRecord E K (tofAt (k / epochCount)) (epochAt (k % epochCount))) := by
  simp [gridEntries, List.getElem?_map, List.getElem?_range hk]

theorem length_gridEntries {σ : Type} (E : Externals σ) (K : Nat) (tofAt : Nat → ℚ)
    (epochCount : Nat) (epochAt : Nat → ℚ) (n : Nat) :
    (gridEntries E K tofAt epochCount epochAt n).length = n := by
  simp [gridEntries]

theorem grid_index (i j : Nat) (hj : j ≤ 400) :
    (i * 401 + j) / 401 = i ∧ (i * 401 + j) % 401 = j := by
  constructor <;> omega

/-! ## The revolution loop -/

theorem revolutionSweep_succ (K : Nat) (dv : Nat → Double) (init : Int × Double) :
    revolutionSweep (K + 1) dv init =
      revolutionStep dv (revolutionSweep K dv init) (K + 1) := by
  simp [revolutionSweep, List.range_succ (K + 1)]

theorem revolutionSweep_zero (dv : Nat → Double) (init : Int × Double) :
    revolutionSweep 0 dv init = (0, dv 0) := by
  simp [revolutionSweep, revolutionStep, List.range_succ]

/-- The loop always ends on a revolution count of its range and the cost computed for
it, whatever the costs are. -/
theorem revolutionSweep_attained (K : Nat) (dv : Nat → Double) (init : Int × Double) :
    ∃ a : Nat, a ≤ K ∧ revolutionSweep K dv init = ((a : Int), dv a) := by
  induction K with
  | zero => exact ⟨0, Nat.le_refl _, by simp [revolutionSweep_zero]⟩
  | succ K ih =>
    obtain ⟨a, ha, h⟩ := ih
    rw [revolutionSweep_succ, h]
    unfold revolutionStep
    rw [if_neg (Nat.succ_ne_zero K)]
    split_ifs
    · exact ⟨K + 1, Nat.le_refl _, rfl⟩
    · exact ⟨a, Nat.le_succ_of_le ha, rfl⟩

/-- When revolution 0 has a finite cost and no cost is `-inf`, the loop ends on the least
finite cost and on the first revolution count that has it. -/
theorem revolutionSweep_finite (K : Nat) (dv : Nat → Double) (init : Int × Double)
    (c0 : ℚ) (h0 : dv 0 = Double.fin c0) (hneg : ∀ r, r ≤ K → dv r ≠ Double.negInf) :
    ∃ (a : Nat) (q : ℚ), a ≤ K ∧ revolutionSweep K dv init = ((a : Int), Double.fin q) ∧
      dv a = Double.fin q ∧
      (∀ r q', r ≤ K → dv r = Double.fin q' → q ≤ q') ∧
      (∀ r q', r < a → dv r = Double.fin q' → q < q') := by
  induction K with
  | zero =>
    refine ⟨0, c0, Nat.le_refl _, by simp [revolutionSweep_zero, h0], h0, ?_, ?_⟩
    · intro r q' hr hq
      have hr0 : r = 0 := by omega
      subst hr0
      rw [h0] at hq
      injection hq with hq
      exact le_of_eq hq
    · intro r q' hr
      omega
  | succ K ih =>
    obtain ⟨a, q, ha, hres, hdv, hmin, hfirst⟩ := ih (fun r hr => hneg r (Nat.le_succ_of_le hr))
    rw [revolutionSweep_succ, hres]
    unfold revolutionStep
    rw [if_neg (Nat.succ_ne_zero K)]
    cases hK : dv (K + 1) with
    | fin q' =>
      by_cases hlt : q' < q
      · refine ⟨K + 1, q', Nat.le_refl _, by simp [Double.lt, hlt], hK, ?_, ?_⟩
        · intro r q'' hr hq
          by_cases hrK : r ≤ K
          · exact le_trans (le_of_lt hlt) (hmin r q'' hrK hq)
          · have : r = K + 1 := by omega
            subst this
            rw [hK] at hq
            injection hq with hq
            exact le_of_eq hq
        · intro r q'' hr hq
          exact lt_of_lt_of_le hlt (hmin r q'' (by omega) hq)
      · refine ⟨a, q, Nat.le_succ_of_le ha, by simp [Double.lt, hlt], hdv, ?_, hfirst⟩
        intro r q'' hr hq
        by_cases hrK : r ≤ K
        · exact hmin r q'' hrK hq
        · have : r = K + 1 := by omega
          subst this
          rw [hK] at hq
          injection hq with hq
          rw [← hq]
          exact not_lt.1 hlt
    | posInf =>
      refine ⟨a, q, Nat.le_succ_of_le ha, by simp [Double.lt], hdv, ?_, hfirst⟩
      intro r q'' hr hq
      by_cases hrK : r ≤ K
      · exact hmin r q'' hrK hq
      · have : r = K + 1 := by omega
        subst this
        rw [hK] at hq
        cases hq
    | negInf => exact absurd hK (hneg (K + 1) (Nat.le_refl _))
    | nan =>
      refine ⟨a, q, Nat.le_succ_of_le ha, by simp [Double.lt], hdv, ?_, hfirst⟩
      intro r q'' hr hq
      by_cases hrK : r ≤ K
      · exact hmin r q'' hrK hq
      · have : r = K + 1 := by omega
        subst this
        rw [hK] at hq
        cases hq

/-- A NaN at revolution 0 stays: no later cost compares below it. -/
theorem revolutionSweep_nan (K : Nat) (dv : Nat → Double) (init : Int × Double)
    (h0 : dv 0 = Double.nan) : revolutionSweep K dv init = (0, Double.nan) := by
  induction K with
  | zero => simp [revolutionSweep_zero, h0]
  | succ K ih =>
    rw [revolutionSweep_succ, ih]
    unfold revolutionStep
    rw [if_neg (Nat.succ_ne_zero K)]
    cases dv (K + 1) <;> simp [Double.lt]

theorem phase1TOF_days (JD : ℚ) (hJD : 0 < JD) (i : Nat) :
    phase1TOF JD i / JD = 500 + 5 * i := by
  unfold phase1TOF timeOfFlightBounds
  field_simp
  ring

theorem phase1DepartureDate_days (JD : ℚ) (hJD : 0 < JD) (j : Nat) :
    phase1DepartureDate JD j / JD = 7304.5 + j * 2921 / 400 := by
  unfold phase1DepartureDate departureTimeBounds
  field_simp
  ring

theorem phase2TOF_days (JD : ℚ) (hJD : 0 < JD) (i : Nat) :
    phase2TOF JD i / JD = 500 + 20 * i := by
  unfold phase2TOF timeOfFlightBounds
  field_simp
  ring

theorem phase2DepartureDate_days (JD : ℚ) (hJD : 0 < JD) (j : Nat) :
    phase2DepartureDate JD j / JD = 7304.5 + 15 * j := by
  unfold phase2DepartureDate departureTimeBounds
  field_simp
  ring

/-! ## Phase 2 in closed form -/

theorem foldl_invariant {α β : Type} (P : α → Prop) (f : α → β → α) (l : List β) (a : α)
    (h0 : P a) (hstep : ∀ s x, x ∈ l → P s → P (f s x)) : P (l.foldl f a) := by
  induction l generalizing a with
  | nil => exact h0
  | cons x rest ih =>
    exact ih (f a x) (hstep a x (List.mem_cons_self _ _) h0)
      (fun s y hy hs => hstep s y (List.mem_cons_of_mem _ hy) hs)

theorem foldl_fixed {α β : Type} (f : α → β → α) (l : List β) (s : α)
    (h : ∀ x, f s x = s) : l.foldl f s = s := by
  induction l with
  | nil => rfl
  | cons x rest ih => rw [List.foldl_cons, h x, ih]

theorem foldl_range_stop {α : Type} (f : α → Nat → α) (n k : Nat) (hk : k < n) (s : α)
    (hfix : ∀ x, f ((List.range (k + 1)).foldl f s) x = (List.range (k + 1)).foldl f s) :
    (List.range n).foldl f s = (List.range (k + 1)).foldl f s := by
  obtain ⟨d, rfl⟩ : ∃ d, n = (k + 1) + d := ⟨n - (k + 1), by omega⟩
  rw [List.range_add, List.foldl_append, foldl_fixed f _ _ hfix]

theorem phase2Point_aborted {σ : Type} (E : Externals σ) (fuel : Nat) (tof epoch : ℚ)
    (st : Phase2State) (a : Abort) (h : st.abort = some a) :
    phase2Point E fuel tof epoch st = st := by
  unfold phase2Point
  rw [h]

theorem phase2Point_fail {σ : Type} (E : Externals σ) (fuel : Nat) (tof epoch : ℚ)
    (st : Phase2State) (a : Abort) (h : st.abort = none)
    (hrun : (optimise E fuel tof epoch).abort = some a) :
    phase2Point E fuel tof epoch st =
      { numberCases := st.numberCases, higherOrder := st.higherOrder,
        lowOrder := st.lowOrder, abort := some a } := by
  unfold phase2Point
  rw [h]
  simp only [hrun]

theorem phase2Point_ok {σ : Type} (E : Externals σ) (fuel : Nat) (tof epoch : ℚ)
    (st : Phase2State) (h : st.abort = none)
    (hrun : (optimise E fuel tof epoch).abort = none) :
    phase2Point E fuel tof epoch st =
      { numberCases := st.numberCases + 1,
        higherOrder := mapAssign st.higherOrder st.numberCases (highRecord E fuel tof epoch),
        lowOrder := mapAssign st.lowOrder st.numberCases (lowRecord E tof epoch),
        abort := none } := by
  unfold phase2Point
  rw [h]
  simp only [hrun]
  rfl

theorem phase2_invariant {σ : Type} (E : Externals σ) (fuel : Nat) (P : Phase2State → Prop)
    (h0 : P { numberCases := 0, higherOrder := [], lowOrder := [], abort := none })
    (hstep : ∀ i j st, i < phase2TofCount E.JULIAN_DAY → j < phase2EpochCount E.JULIAN_DAY →
      P st → P (phase2Point E fuel (phase2TOF E.JULIAN_DAY i)
        (phase2DepartureDate E.JULIAN_DAY j) st)) :
    P (phase2 E fuel) := by
  unfold phase2
  apply foldl_invariant P _ _ _ h0
  intro s i hi hs
  apply foldl_invariant P _ _ _ hs
  intro s' j hj hs'
  exact hstep i j s' (List.mem_range.1 hi) (List.mem_range.1 hj) hs'

theorem phase2Done_succ {σ : Type} (E : Externals σ) (fuel : Nat) (n : Nat)
    (hrun : (optimise E fuel
      (phase2TOF E.JULIAN_DAY (n / phase2EpochCount E.JULIAN_DAY))
      (phase2DepartureDate E.JULIAN_DAY (n % phase2EpochCount E.JULIAN_DAY))).abort = none) :
    phase2Point E fuel (phase2TOF E.JULIAN_DAY (n / phase2EpochCount E.JULIAN_DAY))
        (phase2DepartureDate E.JULIAN_DAY (n % phase2EpochCount E.JULIAN_DAY))
        (phase2Done E fuel n) = phase2Done E fuel (n + 1) := by
  rw [phase2Point_ok E fuel _ _ _ rfl hrun]
  have hkeys : ∀ (f : Nat → Vector4d),
      ∀ p ∈ (List.range n).map (fun (k : Nat) => ((k : Int), f k)), p.1 < (n : Int) := by
    intro f p hp
    simp only [List.mem_map, List.mem_range] at hp
    obtain ⟨k, hk, rfl⟩ := hp
    simp only
    omega
  simp only [phase2Done]
  rw [mapAssign_of_keys_lt _ _ _ (hkeys _), mapAssign_of_keys_lt _ _ _ (hkeys _)]
  simp [List.range_succ]

theorem phase2_inner {σ : Type} (E : Externals σ) (fuel : Nat) (i m : Nat)
    (hm : m ≤ phase2EpochCount E.JULIAN_DAY)
    (hok : ∀ j, j < m → (optimise E fuel (phase2TOF E.JULIAN_DAY i)
      (phase2DepartureDate E.JULIAN_DAY j)).abort = none) :
    (List.range m).foldl (fun st j => phase2Point E fuel (phase2TOF E.JULIAN_DAY i)
        (phase2DepartureDate E.JULIAN_DAY j) st)
        (phase2Done E fuel (i * phase2EpochCount E.JULIAN_DAY)) =
      phase2Done E fuel (i * phase2EpochCount E.JULIAN_DAY + m) := by
  induction m with
  | zero => simp
  | succ m ih =>
    have hlt : m < phase2EpochCount E.JULIAN_DAY := hm
    rw [List.range_succ, List.foldl_append,
      ih (Nat.le_of_lt hlt) (fun j hj => hok j (Nat.lt_succ_of_lt hj))]
    simp only [List.foldl_cons, List.foldl_nil]
    have hdiv : (i * phase2EpochCount E.JULIAN_DAY + m) / phase2EpochCount E.JULIAN_DAY = i := by
      rw [Nat.mul_comm, Nat.mul_add_div (by omega), Nat.div_eq_of_lt hlt, Nat.add_zero]
    have hmod : (i * phase2EpochCount E.JULIAN_DAY + m) % phase2EpochCount E.JULIAN_DAY = m := by
      rw [Nat.mul_comm, Nat.mul_add_mod, Nat.mod_eq_of_lt hlt]
    have h := phase2Done_succ E fuel (i * phase2EpochCount E.JULIAN_DAY + m)
    rw [hdiv, hmod] at h
    exact h (hok m (Nat.lt_succ_self m))

theorem phase2_outer {σ : Type} (E : Externals σ) (fuel : Nat) (r : Nat)
    (hok : ∀ i j, i < r → j < phase2EpochCount E.JULIAN_DAY →
      (optimise E fuel (phase2TOF E.JULIAN_DAY i)
        (phase2DepartureDate E.JULIAN_DAY j)).abort = none) :
    (List.range r).foldl
        (fun st i => (List.range (phase2EpochCount E.JULIAN_DAY)).foldl
          (fun st j => phase2Point E fuel (phase2TOF E.JULIAN_DAY i)
            (phase2DepartureDate E.JULIAN_DAY j) st) st)
        { numberCases := 0, higherOrder := [], lowOrder := [], abort := none } =
      phase2Done E fuel (r * phase2EpochCount E.JULIAN_DAY) := by
  induction r with
  | zero => simp [phase2Done]
  | succ r ih =>
    rw [List.range_succ, List.foldl_append,
      ih (fun i j hi hj => hok i j (Nat.lt_succ_of_lt hi) hj)]
    simp only [List.foldl_cons, List.foldl_nil]
    rw [phase2_inner E fuel r _ (Nat.le_refl _) (fun j hj => hok r j (Nat.lt_succ_self r) hj)]
    have : r * phase2EpochCount E.JULIAN_DAY + phase2EpochCount E.JULIAN_DAY =
        (r + 1) * phase2EpochCount E.JULIAN_DAY := by ring
    rw [this]

/-- When every optimisation runs to its end, phase 2 records all grid points. -/
theorem phase2_completed {σ : Type} (E : Externals σ) (fuel : Nat)
    (hok : ∀ i j, i < phase2TofCount E.JULIAN_DAY → j < phase2EpochCount E.JULIAN_DAY →
      (optimise E fuel (phase2TOF E.JULIAN_DAY i)
        (phase2DepartureDate E.JULIAN_DAY j)).abort = none) :
    phase2 E fuel =
      phase2Done E fuel (phase2TofCount E.JULIAN_DAY * phase2EpochCount E.JULIAN_DAY) :=
  phase2_outer E fuel _ hok

/-- When the optimisation of grid point `(i0, j0)` is the first that is cut short,
phase 2 stops there: the earlier points are recorded, nothing else is. -/
theorem phase2_stopped {σ : Type} (E : Externals σ) (fuel : Nat) (i0 j0 : Nat)
    (hi : i0 < phase2TofCount E.JULIAN_DAY) (hj : j0 < phase2EpochCount E.JULIAN_DAY)
    (hok : ∀ i j, j < phase2EpochCount E.JULIAN_DAY →
      i * phase2EpochCount E.JULIAN_DAY + j < i0 * phase2EpochCount E.JULIAN_DAY + j0 →
      (optimise E fuel (phase2TOF E.JULIAN_DAY i)
        (phase2DepartureDate E.JULIAN_DAY j)).abort = none)
    (a : Abort)
    (hfail : (optimise E fuel (phase2TOF E.JULIAN_DAY i0)
      (phase2DepartureDate E.JULIAN_DAY j0)).abort = some a) :
    phase2 E fuel =
      phase2Stopped E fuel (i0 * phase2EpochCount E.JULIAN_DAY + j0) a := by
  have hrow : (List.range (phase2EpochCount E.JULIAN_DAY)).foldl
      (fun st j => phase2Point E fuel (phase2TOF E.JULIAN_DAY i0)
        (phase2DepartureDate E.JULIAN_DAY j) st)
      (phase2Done E fuel (i0 * phase2EpochCount E.JULIAN_DAY)) =
      phase2Stopped E fuel (i0 * phase2EpochCount E.JULIAN_DAY + j0) a := by
    have hpre : (List.range (j0 + 1)).foldl
        (fun st j => phase2Point E fuel (phase2TOF E.JULIAN_DAY i0)
          (phase2DepartureDate E.JULIAN_DAY j) st)
        (phase2Done E fuel (i0 * phase2EpochCount E.JULIAN_DAY)) =
        phase2Stopped E fuel (i0 * phase2EpochCount E.JULIAN_DAY + j0) a := by
      rw [List.range_succ, List.foldl_append,
        phase2_inner E fuel i0 j0 (Nat.le_of_lt hj)
          (fun j hjj => hok i0 j (Nat.lt_trans hjj hj) (by omega))]
      simp only [List.foldl_cons, List.foldl_nil]
      rw [phase2Point_fail E fuel _ _ _ a rfl hfail]
      rfl
    rw [foldl_range_stop _ _ j0 hj _ (by
      intro x
      rw [hpre]
      exact phase2Point_aborted E fuel _ _ _ a rfl)]
    exact hpre
  have hpre : (List.range (i0 + 1)).foldl
      (fun st i => (List.range (phase2EpochCount E.JULIAN_DAY)).foldl
        (fun st j => phase2Point E fuel (phase2TOF E.JULIAN_DAY i)
          (phase2DepartureDate E.JULIAN_DAY j) st) st)
      { numberCases := 0, higherOrder := [], lowOrder := [], abort := none } =
      phase2Stopped E fuel (i0 * phase2EpochCount E.JULIAN_DAY + j0) a := by
    rw [List.range_succ, List.foldl_append,
      phase2_outer E fuel i0 (fun i j hii hjj => hok i j hjj (by
        have : (i + 1) * phase2EpochCount E.JULIAN_DAY ≤ i0 * phase2EpochCount E.JULIAN_DAY :=
          Nat.mul_le_mul_right _ hii
        have h2 : (i + 1) * phase2EpochCount E.JULIAN_DAY =
            i * phase2EpochCount E.JULIAN_DAY + phase2EpochCount E.JULIAN_DAY := by ring
        omega))]
    simp only [List.foldl_cons, List.foldl_nil]
    exact hrow
  unfold phase2
  rw [foldl_range_stop _ _ i0 hi _ (by
    intro x
    rw [hpre]
    exact foldl_fixed _ _ _ (fun j => phase2Point_aborted E fuel _ _ _ a rfl))]
  exact hpre

/-- With collaborators whose island is idle at once and whose `wait_check` succeeds, an
optimisation runs to its end. -/
theorem optimise_constant_ok (JD : ℚ) (dv : Nat → Double) (fuel : Nat) (tof epoch : ℚ) :
    (optimise (constantExternals JD dv (Except.ok ())) fuel tof epoch).abort = none := by
  cases fuel <;> rfl

/-- With collaborators whose `wait_check` raises, the first round of an optimisation
leaves the program. -/
theorem optimise_constant_raised (JD : ℚ) (dv : Nat → Double) (what : String) (fuel : Nat)
    (tof epoch : ℚ) :
    (optimise (constantExternals JD dv (Except.error what)) fuel tof epoch).abort =
      some (Abort.raised what) := by
  cases fuel <;> rfl

theorem phase2_aligned {σ : Type} (E : Externals σ) (fuel : Nat) :
    (phase2 E fuel).higherOrder.map (fun p => (p.1, p.2.take 2)) =
      (phase2 E fuel).lowOrder.map (fun p => (p.1, p.2.take 2)) := by
  apply phase2_invariant E fuel
    (fun st => st.higherOrder.map (fun p => (p.1, p.2.take 2)) =
      st.lowOrder.map (fun p => (p.1, p.2.take 2)))
  · rfl
  · intro i j st _ _ hP
    cases hst : st.abort with
    | some a => rw [phase2Point_aborted E fuel _ _ st a hst]; exact hP
    | none =>
      cases hrun : (optimise E fuel (phase2TOF E.JULIAN_DAY i)
          (phase2DepartureDate E.JULIAN_DAY j)).abort with
      | some a => rw [phase2Point_fail E fuel _ _ st a hst hrun]; exact hP
      | none =>
        rw [phase2Point_ok E fuel _ _ st hst hrun]
        simp only [map_mapAssign, hP]
        rfl

theorem mapFind_phase2Done_zero {σ : Type} (E : Externals σ) (fuel : Nat) (n : Nat) :
    mapFind (phase2Done E fuel (n + 1)).higherOrder 0 =
        some (highRecord E fuel (phase2TOF E.JULIAN_DAY (0 / phase2EpochCount E.JULIAN_DAY))
          (phase2DepartureDate E.JULIAN_DAY (0 % phase2EpochCount E.JULIAN_DAY))) ∧
      mapFind (phase2Done E fuel (n + 1)).lowOrder 0 =
        some (lowRecord E (phase2TOF E.JULIAN_DAY (0 / phase2EpochCount E.JULIAN_DAY))
          (phase2DepartureDate E.JULIAN_DAY (0 % phase2EpochCount E.JULIAN_DAY))) := by
  simp [phase2Done, List.range_succ_eq_map, mapFind]

theorem phase1_record {σ : Type} (E : Externals σ) (hJD : 0 < E.JULIAN_DAY) (i j : Nat)
    (hi : i ≤ 300) (hj : j ≤ 400) :
    mapFind (phase1 E) (((i * 401 + j : Nat) : Int) + 1) =
      some (gridRecord E 5 (phase1TOF E.JULIAN_DAY i) (phase1DepartureDate E.JULIAN_DAY j)) := by
  rw [phase1_eq E hJD, mapFind_gridEntries E 5 _ 401 _ 120701 (i * 401 + j) (by omega),
    (grid_index i j hj).1, (grid_index i j hj).2]

theorem gridSearch_scenario {σ : Type} (E : Externals σ) (K : Nat) :
    gridSearch E K 0 10 10 0 10 10 =
      gridEntries E K (fun i => 0 + (i : ℚ) * 10) 2 (fun j => 0 + (j : ℚ) * 10) 4 := by
  have h : ((10 - 0) / 10 : ℚ) = ((1 : Nat) : ℚ) := by norm_num
  unfold gridSearch
  rw [h, loopCount_natCast, gridLoops_eq]

theorem gridSearch_scenarioA :
    gridSearch (constantExternals 1 costIsRevolutionCount (Except.ok ())) 1 0 10 10 0 10 10 =
      [(1, [Double.fin 0, Double.fin 0, Double.fin 0, Double.fin 0]),
       (2, [Double.fin 0, Double.fin 10, Double.fin 0, Double.fin 0]),
       (3, [Double.fin 10, Double.fin 0, Double.fin 0, Double.fin 0]),
       (4, [Double.fin 10, Double.fin 10, Double.fin 0, Double.fin 0])] := by
  rw [gridSearch_scenario]
  norm_num [gridEntries, List.range_succ, gridRecord, outputVector, revolutionSweep,
    revolutionStep, constantExternals, costIsRevolutionCount, Double.lt]

theorem gridSearch_scenarioB :
    gridSearch (constantExternals 1 failsAtZero (Except.ok ())) 1 0 10 10 0 10 10 =
      [(1, [Double.fin 0, Double.fin 0, Double.nan, Double.fin 0]),
       (2, [Double.fin 0, Double.fin 10, Double.nan, Double.fin 0]),
       (3, [Double.fin 10, Double.fin 0, Double.nan, Double.fin 0]),
       (4, [Double.fin 10, Double.fin 10, Double.nan, Double.fin 0])] := by
  rw [gridSearch_scenario]
  simp [gridEntries, List.range_succ, gridRecord, outputVector, revolutionSweep, revolutionStep,
    constantExternals, failsAtZero, Double.lt]

/-- When phase 2 is left early, `main` has written the file of phase 1 and nothing
else. -/
theorem main_stopped {σ : Type} (E : Externals σ) (fuel : Nat) (a : Abort)
    (h : (phase2 E fuel).abort = some a) :
    main E fuel =
      { written := [("hodographicShapingGridSearch.dat", phase1 E)], exit := Exit.aborted a } := by
  unfold main
  simp only [h]

/-! ## Phase 1: the best of the revolution sweep -/

/-- C1: at every phase-1 grid point `(i, j)` where the evaluator returns a finite cost
`c r` for each revolution count `r = 0..5`, the record stored for the point (key
`i * 401 + j + 1`) has as its third coefficient `bestCost` the minimum of `c` over
`0..5`: a value of `c` on the range that no value on the range is below. -/
theorem phase1_bestCost_is_minimum {σ : Type} (E : Externals σ) (hJD : 0 < E.JULIAN_DAY)
    (i j : Nat) (hi : i ≤ 300) (hj : j ≤ 400) (c : Nat → ℚ)
    (hc : ∀ r, r ≤ 5 → E.computeDeltaV (phase1TOF E.JULIAN_DAY i)
      (phase1DepartureDate E.JULIAN_DAY j) r = Double.fin (c r)) :
    ∃ (v : Vector4d) (m : ℚ),
      mapFind (phase1 E) (((i * 401 + j : Nat) : Int) + 1) = some v ∧
      v[2]? = some (Double.fin m) ∧
      (∃ r, r ≤ 5 ∧ c r = m) ∧ ∀ r, r ≤ 5 → m ≤ c r := by
  obtain ⟨a, q, ha, hres, hdv, hmin, _⟩ :=
    revolutionSweep_finite 5 (E.computeDeltaV (phase1TOF E.JULIAN_DAY i)
      (phase1DepartureDate E.JULIAN_DAY j)) E.uninitialised (c 0) (hc 0 (by omega))
      (fun r hr h => by rw [hc r hr] at h; cases h)
  refine ⟨gridRecord E 5 (phase1TOF E.JULIAN_DAY i) (phase1DepartureDate E.JULIAN_DAY j),
    q, ?_, ?_, ⟨a, ha, ?_⟩, fun r hr => hmin r (c r) hr (hc r hr)⟩
  · rw [phase1_eq E hJD, mapFind_gridEntries E 5 _ 401 _ 120701 (i * 401 + j) (by omega),
      (grid_index i j hj).1, (grid_index i j hj).2]
  · simp [gridRecord, outputVector, hres]
  · have h := hc a ha
    rw [hdv] at h
    injection h with h
    exact h.symm

theorem phase1_bestCost_is_minimum_witness :
    (0 : ℚ) < (constantExternals 86400 costIsRevolutionCount (Except.ok ())).JULIAN_DAY ∧
    (∀ r, r ≤ 5 → (constantExternals 86400 costIsRevolutionCount (Except.ok ())).computeDeltaV
      (phase1TOF 86400 3) (phase1DepartureDate 86400 7) r = Double.fin (r : ℚ)) ∧
    ∃ (v : Vector4d) (m : ℚ),
      mapFind (phase1 (constantExternals 86400 costIsRevolutionCount (Except.ok ())))
        (((3 * 401 + 7 : Nat) : Int) + 1) = some v ∧
      v[2]? = some (Double.fin m) ∧
      (∃ r : Nat, r ≤ 5 ∧ (r : ℚ) = m) ∧ ∀ r : Nat, r ≤ 5 → m ≤ (r : ℚ) :=
  ⟨by norm_num [constantExternals], fun _ _ => rfl,
    phase1_bestCost_is_minimum (constantExternals 86400 costIsRevolutionCount (Except.ok ()))
      (by norm_num [constantExternals]) 3 7 (by decide) (by decide) (fun (r : Nat) => (r : ℚ))
      (fun _ _ => rfl)⟩

/-- C2: at every phase-1 grid point where the evaluator returns a finite cost `c r` for
each revolution count `r = 0..5`, the fourth coefficient `revolutionCount` of the stored
record is the smallest revolution count of `0..5` whose cost is the stored `bestCost`:
every earlier revolution count has a different cost (ties keep the earliest). -/
theorem phase1_revolutionCount_is_first_minimiser {σ : Type} (E : Externals σ)
    (hJD : 0 < E.JULIAN_DAY) (i j : Nat) (hi : i ≤ 300) (hj : j ≤ 400) (c : Nat → ℚ)
    (hc : ∀ r, r ≤ 5 → E.computeDeltaV (phase1TOF E.JULIAN_DAY i)
      (phase1DepartureDate E.JULIAN_DAY j) r = Double.fin (c r)) :
    ∃ (v : Vector4d) (m : ℚ) (a : Nat),
      mapFind (phase1 E) (((i * 401 + j : Nat) : Int) + 1) = some v ∧
      v[2]? = some (Double.fin m) ∧ v[3]? = some (Double.fin (a : ℚ)) ∧
      a ≤ 5 ∧ c a = m ∧ ∀ r, r < a → c r ≠ m := by
  obtain ⟨a, q, ha, hres, hdv, _, hfirst⟩ :=
    revolutionSweep_finite 5 (E.computeDeltaV (phase1TOF E.JULIAN_DAY i)
      (phase1DepartureDate E.JULIAN_DAY j)) E.uninitialised (c 0) (hc 0 (by omega))
      (fun r hr h => by rw [hc r hr] at h; cases h)
  refine ⟨gridRecord E 5 (phase1TOF E.JULIAN_DAY i) (phase1DepartureDate E.JULIAN_DAY j),
    q, a, ?_, ?_, ?_, ha, ?_, ?_⟩
  · rw [phase1_eq E hJD, mapFind_gridEntries E 5 _ 401 _ 120701 (i * 401 + j) (by omega),
      (grid_index i j hj).1, (grid_index i j hj).2]
  · simp [gridRecord, outputVector, hres]
  · simp [gridRecord, outputVector, hres]
  · have h := hc a ha
    rw [hdv] at h
    injection h with h
    exact h.symm
  · intro r hr h
    exact absurd h (ne_of_gt (hfirst r (c r) hr (hc r (by omega))))

theorem phase1_revolutionCount_is_first_minimiser_witness :
    (0 : ℚ) < (constantExternals 86400 (fun _ => Double.fin 2) (Except.ok ())).JULIAN_DAY ∧
    (∀ r, r ≤ 5 → (constantExternals 86400 (fun _ => Double.fin 2) (Except.ok ())).computeDeltaV
      (phase1TOF 86400 300) (phase1DepartureDate 86400 400) r =
        Double.fin 2) ∧
    ∃ (v : Vector4d) (m : ℚ) (a : Nat),
      mapFind (phase1 (constantExternals 86400 (fun _ => Double.fin 2) (Except.ok ())))
        (((300 * 401 + 400 : Nat) : Int) + 1) = some v ∧
      v[2]? = some (Double.fin m) ∧ v[3]? = some (Double.fin (a : ℚ)) ∧
      a ≤ 5 ∧ (2 : ℚ) = m ∧ ∀ r : Nat, r < a → (2 : ℚ) ≠ m :=
  ⟨by norm_num [constantExternals], fun _ _ => rfl,
    phase1_revolutionCount_is_first_minimiser
      (constantExternals 86400 (fun _ => Double.fin 2) (Except.ok ()))
      (by norm_num [constantExternals]) 300 400 (by decide) (by decide) (fun (_ : Nat) => (2 : ℚ))
      (fun _ _ => rfl)⟩

/-- C3: phase 1 stores exactly one record per grid point, in the order of the loops
(time of flight outside, departure date inside): for the configured grid the result has
`301 * 401 = 120701` entries, their keys increase strictly (so they are distinct), and
entry number `k` in key order, counted from 0, is the record of time-of-flight index
`k / 401` and departure-date index `k % 401`. -/
theorem phase1_one_record_per_grid_point {σ : Type} (E : Externals σ)
    (hJD : 0 < E.JULIAN_DAY) :
    (phase1 E).length = 301 * 401 ∧
    List.Pairwise (fun p q => p.1 < q.1) (phase1 E) ∧
    ∀ (k : Nat), k < 301 * 401 → (phase1 E)[k]? = some ((k : Int) + 1,
      gridRecord E 5 (phase1TOF E.JULIAN_DAY (k / 401))
        (phase1DepartureDate E.JULIAN_DAY (k % 401))) := by
  rw [phase1_eq E hJD]
  refine ⟨length_gridEntries _ _ _ _ _ _, ?_, fun k hk => getElem?_gridEntries _ _ _ _ _ _ k hk⟩
  unfold gridEntries
  rw [List.pairwise_map]
  exact (List.pairwise_lt_range 120701).imp (fun h => by simp only; omega)

theorem phase1_one_record_per_grid_point_witness :
    (0 : ℚ) < (constantExternals 86400 costIsRevolutionCount (Except.ok ())).JULIAN_DAY ∧
    (phase1 (constantExternals 86400 costIsRevolutionCount (Except.ok ()))).length = 301 * 401 ∧
    List.Pairwise (fun p q => p.1 < q.1)
      (phase1 (constantExternals 86400 costIsRevolutionCount (Except.ok ()))) ∧
    ∀ (k : Nat), k < 301 * 401 →
      (phase1 (constantExternals 86400 costIsRevolutionCount (Except.ok ())))[k]? =
        some ((k : Int) + 1,
          gridRecord (constantExternals 86400 costIsRevolutionCount (Except.ok ())) 5
            (phase1TOF 86400 (k / 401)) (phase1DepartureDate 86400 (k % 401))) :=
  ⟨by norm_num [constantExternals],
    phase1_one_record_per_grid_point
      (constantExternals 86400 costIsRevolutionCount (Except.ok ()))
      (by norm_num [constantExternals])⟩

/-! ## Phase 2: the two streams -/

/-- C4: in phase 2, whenever and however the loops are left, the two result maps have
the same keys (the same set of indices, in the same order), and for every index `i`
present in both, `highOrderResults[i]` and `lowOrderResults[i]` start with the same two
coefficients, the time of flight and the departure epoch of one grid point. -/
theorem phase2_streams_share_grid_point {σ : Type} (E : Externals σ) (fuel : Nat) :
    (phase2 E fuel).higherOrder.map Prod.fst = (phase2 E fuel).lowOrder.map Prod.fst ∧
    ∀ (i : Int) (h l : Vector4d), mapFind (phase2 E fuel).higherOrder i = some h →
      mapFind (phase2 E fuel).lowOrder i = some l → h[0]? = l[0]? ∧ h[1]? = l[1]? := by
  have hal := phase2_aligned E fuel
  constructor
  · have h := congrArg (List.map Prod.fst) hal
    simpa [List.map_map, Function.comp_def] using h
  · intro i h l hh hl
    have hf := mapFind_map (List.take 2) (phase2 E fuel).higherOrder i
    rw [hal, mapFind_map (List.take 2) (phase2 E fuel).lowOrder i, hh, hl] at hf
    simp only [Option.map_some', Option.some.injEq] at hf
    have h0 := congrArg (fun x => x[0]?) hf
    have h1 := congrArg (fun x => x[1]?) hf
    simp only [List.getElem?_take] at h0 h1
    exact ⟨by simpa using h0.symm, by simpa using h1.symm⟩

theorem phase2_streams_share_grid_point_witness :
    mapFind (phase2 (constantExternals 86400 costIsRevolutionCount (Except.ok ())) 0).higherOrder 0
      = some [Double.fin 500, Double.fin 7304.5, Double.fin 0, Double.fin 1] ∧
    mapFind (phase2 (constantExternals 86400 costIsRevolutionCount (Except.ok ())) 0).lowOrder 0
      = some [Double.fin 500, Double.fin 7304.5, Double.fin 0, Double.fin 1] ∧
    ([Double.fin 500, Double.fin 7304.5, Double.fin 0, Double.fin 1] : Vector4d)[0]? =
      ([Double.fin 500, Double.fin 7304.5, Double.fin 0, Double.fin 1] : Vector4d)[0]? ∧
    ([Double.fin 500, Double.fin 7304.5, Double.fin 0, Double.fin 1] : Vector4d)[1]? =
      ([Double.fin 500, Double.fin 7304.5, Double.fin 0, Double.fin 1] : Vector4d)[1]? := by
  have hJD : (0 : ℚ) < (constantExternals 86400 costIsRevolutionCount (Except.ok ())).JULIAN_DAY := by
    norm_num [constantExternals]
  have hdone := phase2_completed (constantExternals 86400 costIsRevolutionCount (Except.ok ())) 0
    (fun i j _ _ => optimise_constant_ok _ _ _ _ _)
  rw [phase2TofCount_eq _ hJD, phase2EpochCount_eq _ hJD] at hdone
  have hz := mapFind_phase2Done_zero
    (constantExternals 86400 costIsRevolutionCount (Except.ok ())) 0 125
  rw [phase2EpochCount_eq _ hJD] at hz
  have hrec : ∀ c : Double, outputVector2 86400 (phase2TOF 86400 0) (phase2DepartureDate 86400 0) c
      = [Double.fin 500, Double.fin 7304.5, c, Double.fin 1] := by
    intro c
    have h1 := phase2TOF_days 86400 (by norm_num) 0
    have h2 := phase2DepartureDate_days 86400 (by norm_num) 0
    simp only [outputVector2, h1, h2]
    norm_num
  have hhigh : mapFind
      (phase2 (constantExternals 86400 costIsRevolutionCount (Except.ok ())) 0).higherOrder 0
      = some [Double.fin 500, Double.fin 7304.5, Double.fin 0, Double.fin 1] := by
    rw [hdone, hz.1]
    exact congrArg some (hrec _)
  have hlow : mapFind
      (phase2 (constantExternals 86400 costIsRevolutionCount (Except.ok ())) 0).lowOrder 0
      = some [Double.fin 500, Double.fin 7304.5, Double.fin 0, Double.fin 1] := by
    rw [hdone, hz.2]
    exact congrArg some (hrec _)
  have hpair := (phase2_streams_share_grid_point
    (constantExternals 86400 costIsRevolutionCount (Except.ok ())) 0).2 0 _ _ hhigh hlow
  exact ⟨hhigh, hlow, hpair.1, hpair.2⟩

/-! ## Failed evaluations in phase 1 -/

/-- C5, as the code has it.  The revolution loop detects no failure: the cost of
revolution 0 is taken as it is, and a later revolution count replaces the best only when
its cost compares strictly below it.  At a phase-1 grid point: (1) when revolution 0 has
a finite cost and no cost is `-inf`, the revolution counts whose cost is a NaN or `+inf`
are passed over and the record holds the least finite cost and the first revolution
count that has it; (2) when the cost of revolution 0 is a NaN, the record keeps the NaN
and revolution count 0; (3) in scenario B (NaN for revolution 0, 5.0 for revolution 1,
revolution range `[0,1]`) every record has `bestCost = NaN` and `revolutionCount = 0`. -/
theorem phase1_sweep_keeps_first_cost {σ : Type} (E : Externals σ)
    (hJD : 0 < E.JULIAN_DAY) (i j : Nat) (hi : i ≤ 300) (hj : j ≤ 400) :
    (∀ c0 : ℚ,
      E.computeDeltaV (phase1TOF E.JULIAN_DAY i) (phase1DepartureDate E.JULIAN_DAY j) 0 =
        Double.fin c0 →
      (∀ r, r ≤ 5 → E.computeDeltaV (phase1TOF E.JULIAN_DAY i)
        (phase1DepartureDate E.JULIAN_DAY j) r ≠ Double.negInf) →
      ∃ (v : Vector4d) (m : ℚ) (a : Nat),
        mapFind (phase1 E) (((i * 401 + j : Nat) : Int) + 1) = some v ∧
        v[2]? = some (Double.fin m) ∧ v[3]? = some (Double.fin (a : ℚ)) ∧ a ≤ 5 ∧
        E.computeDeltaV (phase1TOF E.JULIAN_DAY i) (phase1DepartureDate E.JULIAN_DAY j) a =
          Double.fin m ∧
        (∀ r q, r ≤ 5 → E.computeDeltaV (phase1TOF E.JULIAN_DAY i)
          (phase1DepartureDate E.JULIAN_DAY j) r = Double.fin q → m ≤ q) ∧
        (∀ r, r < a → E.computeDeltaV (phase1TOF E.JULIAN_DAY i)
          (phase1DepartureDate E.JULIAN_DAY j) r ≠ Double.fin m)) ∧
    (E.computeDeltaV (phase1TOF E.JULIAN_DAY i) (phase1DepartureDate E.JULIAN_DAY j) 0 =
        Double.nan →
      ∃ v : Vector4d, mapFind (phase1 E) (((i * 401 + j : Nat) : Int) + 1) = some v ∧
        v[2]? = some Double.nan ∧ v[3]? = some (Double.fin 0)) ∧
    (gridSearch (constantExternals 1 failsAtZero (Except.ok ())) 1 0 10 10 0 10 10).map Prod.snd =
      [[Double.fin 0, Double.fin 0, Double.nan, Double.fin 0],
       [Double.fin 0, Double.fin 10, Double.nan, Double.fin 0],
       [Double.fin 10, Double.fin 0, Double.nan, Double.fin 0],
       [Double.fin 10, Double.fin 10, Double.nan, Double.fin 0]] := by
  refine ⟨?_, ?_, ?_⟩
  · intro c0 h0 hneg
    obtain ⟨a, q, ha, hres, hdv, hmin, hfirst⟩ :=
      revolutionSweep_finite 5 (E.computeDeltaV (phase1TOF E.JULIAN_DAY i)
        (phase1DepartureDate E.JULIAN_DAY j)) E.uninitialised c0 h0 hneg
    refine ⟨gridRecord E 5 (phase1TOF E.JULIAN_DAY i) (phase1DepartureDate E.JULIAN_DAY j),
      q, a, phase1_record E hJD i j hi hj, ?_, ?_, ha, hdv, hmin, ?_⟩
    · simp [gridRecord, outputVector, hres]
    · simp [gridRecord, outputVector, hres]
    · intro r hr h
      exact absurd (hfirst r q hr h) (lt_irrefl q)
  · intro h0
    refine ⟨gridRecord E 5 (phase1TOF E.JULIAN_DAY i) (phase1DepartureDate E.JULIAN_DAY j),
      phase1_record E hJD i j hi hj, ?_, ?_⟩
    · simp [gridRecord, outputVector, revolutionSweep_nan 5 _ E.uninitialised h0]
    · simp [gridRecord, outputVector, revolutionSweep_nan 5 _ E.uninitialised h0]
  · rw [gridSearch_scenarioB]
    rfl

theorem phase1_sweep_keeps_first_cost_witness :
    (0 : ℚ) < (constantExternals 86400 failsAtOne (Except.ok ())).JULIAN_DAY ∧
    (constantExternals 86400 failsAtOne (Except.ok ())).computeDeltaV
      (phase1TOF 86400 0) (phase1DepartureDate 86400 0) 0 = Double.fin 3 ∧
    (∀ r, r ≤ 5 → (constantExternals 86400 failsAtOne (Except.ok ())).computeDeltaV
      (phase1TOF 86400 0) (phase1DepartureDate 86400 0) r ≠ Double.negInf) ∧
    (∃ (v : Vector4d) (m : ℚ) (a : Nat),
      mapFind (phase1 (constantExternals 86400 failsAtOne (Except.ok ())))
        (((0 * 401 + 0 : Nat) : Int) + 1) = some v ∧
      v[2]? = some (Double.fin m) ∧ v[3]? = some (Double.fin (a : ℚ)) ∧ a ≤ 5 ∧
      failsAtOne a = Double.fin m ∧
      (∀ r q, r ≤ 5 → failsAtOne r = Double.fin q → m ≤ q) ∧
      (∀ r, r < a → failsAtOne r ≠ Double.fin m)) ∧
    (0 : ℚ) < (constantExternals 86400 failsAtZero (Except.ok ())).JULIAN_DAY ∧
    failsAtZero 0 = Double.nan ∧
    (∃ v : Vector4d, mapFind (phase1 (constantExternals 86400 failsAtZero (Except.ok ())))
        (((0 * 401 + 0 : Nat) : Int) + 1) = some v ∧
      v[2]? = some Double.nan ∧ v[3]? = some (Double.fin 0)) := by
  have hneg : ∀ r, r ≤ 5 → failsAtOne r ≠ Double.negInf := by
    intro r _ h
    unfold failsAtOne at h
    split_ifs at h
  exact ⟨by norm_num [constantExternals], rfl, hneg,
    (phase1_sweep_keeps_first_cost (constantExternals 86400 failsAtOne (Except.ok ()))
      (by norm_num [constantExternals]) 0 0 (by decide) (by decide)).1 3 rfl hneg,
    by norm_num [constantExternals], rfl,
    (phase1_sweep_keeps_first_cost (constantExternals 86400 failsAtZero (Except.ok ()))
      (by norm_num [constantExternals]) 0 0 (by decide) (by decide)).2.1 rfl⟩

/-- C5 as stated fails in scenario B (NaN for revolution 0, 5.0 for revolution 1,
revolution range `[0,1]`): no record of the sweep has `bestCost = 5.0` and
`revolutionCount = 1`. -/
theorem scenarioB_has_no_record_with_cost_five :
    ¬ ∃ p ∈ gridSearch (constantExternals 1 failsAtZero (Except.ok ())) 1 0 10 10 0 10 10,
      p.2[2]? = some (Double.fin 5) ∧ p.2[3]? = some (Double.fin 1) := by
  rw [gridSearch_scenarioB]
  simp

/-- C6, as the code has it.  When the evaluator returns a non-finite cost for every
revolution count at a phase-1 grid point `(i, j)`, the sweep still stores a record for
the point under its key `i * 401 + j + 1` and works through the whole grid (the result
has all `301 * 401` entries).  The record's `bestCost` is one of the non-finite costs
returned, which is all that marks it, and its `revolutionCount` is the revolution count
of `0..5` that returned it, not an absent value: it is 0 when the cost of revolution 0
is a NaN. -/
theorem phase1_all_revolutions_fail {σ : Type} (E : Externals σ)
    (hJD : 0 < E.JULIAN_DAY) (i j : Nat) (hi : i ≤ 300) (hj : j ≤ 400)
    (hfail : ∀ r, r ≤ 5 → (E.computeDeltaV (phase1TOF E.JULIAN_DAY i)
      (phase1DepartureDate E.JULIAN_DAY j) r).isFinite = false) :
    (phase1 E).length = 301 * 401 ∧
    ∃ (cost : Double) (a : Nat),
      mapFind (phase1 E) (((i * 401 + j : Nat) : Int) + 1) =
        some [Double.fin (500 + 5 * i), Double.fin (7304.5 + j * 2921 / 400), cost,
          Double.fin (a : ℚ)] ∧
      cost.isFinite = false ∧ a ≤ 5 ∧
      E.computeDeltaV (phase1TOF E.JULIAN_DAY i) (phase1DepartureDate E.JULIAN_DAY j) a = cost ∧
      (E.computeDeltaV (phase1TOF E.JULIAN_DAY i) (phase1DepartureDate E.JULIAN_DAY j) 0 =
        Double.nan → cost = Double.nan ∧ a = 0) := by
  constructor
  · rw [phase1_eq E hJD, length_gridEntries]
  · obtain ⟨a, ha, hres⟩ := revolutionSweep_attained 5
      (E.computeDeltaV (phase1TOF E.JULIAN_DAY i) (phase1DepartureDate E.JULIAN_DAY j))
      E.uninitialised
    refine ⟨_, a, ?_, hfail a ha, ha, rfl, ?_⟩
    · rw [phase1_record E hJD i j hi hj]
      simp [gridRecord, outputVector, hres, phase1TOF_days _ hJD,
        phase1DepartureDate_days _ hJD]
    · intro h0
      have hnan := revolutionSweep_nan 5 _ E.uninitialised h0
      rw [hres] at hnan
      have h1 := congrArg Prod.fst hnan
      have h2 := congrArg Prod.snd hnan
      simp only at h1 h2
      exact ⟨h2, by exact_mod_cast h1⟩

theorem phase1_all_revolutions_fail_witness :
    (0 : ℚ) < (constantExternals 86400 alwaysFails (Except.ok ())).JULIAN_DAY ∧
    (∀ r, r ≤ 5 → ((constantExternals 86400 alwaysFails (Except.ok ())).computeDeltaV
      (phase1TOF 86400 2) (phase1DepartureDate 86400 9) r).isFinite = false) ∧
    (phase1 (constantExternals 86400 alwaysFails (Except.ok ()))).length = 301 * 401 ∧
    ∃ (cost : Double) (a : Nat),
      mapFind (phase1 (constantExternals 86400 alwaysFails (Except.ok ())))
        (((2 * 401 + 9 : Nat) : Int) + 1) =
        some [Double.fin (500 + 5 * (2 : Nat)), Double.fin (7304.5 + (9 : Nat) * 2921 / 400), cost,
          Double.fin (a : ℚ)] ∧
      cost.isFinite = false ∧ a ≤ 5 ∧ alwaysFails a = cost ∧
      (alwaysFails 0 = Double.nan → cost = Double.nan ∧ a = 0) :=
  ⟨by norm_num [constantExternals], fun _ _ => rfl,
    phase1_all_revolutions_fail (constantExternals 86400 alwaysFails (Except.ok ()))
      (by norm_num [constantExternals]) 2 9 (by decide) (by decide) (fun _ _ => rfl)⟩

/-- C6 as stated fails for an evaluator that returns a NaN for every revolution count:
the record of the first grid point (key 1) does carry a revolution count, namely 0. -/
theorem all_fail_record_has_revolution_count :
    ¬ ∀ v : Vector4d,
      mapFind (phase1 (constantExternals 86400 alwaysFails (Except.ok ()))) 1 = some v →
      ¬ ∃ r : Nat, v[3]? = some (Double.fin (r : ℚ)) := by
  intro h
  have hJD : (0 : ℚ) < (constantExternals 86400 alwaysFails (Except.ok ())).JULIAN_DAY := by
    norm_num [constantExternals]
  have hrec := phase1_record (constantExternals 86400 alwaysFails (Except.ok ())) hJD 0 0
    (by decide) (by decide)
  have hkey : (((0 * 401 + 0 : Nat) : Int) + 1) = 1 := by norm_num
  rw [hkey] at hrec
  refine h _ hrec ⟨0, ?_⟩
  have hnan := revolutionSweep_nan 5 alwaysFails (7, Double.fin (-1)) rfl
  simp [gridRecord, outputVector, constantExternals, hnan]

/-! ## An error raised in phase 2 -/

/-- C7, as the code has it.  Nothing catches what `wait_check` raises.  If the
optimisation of phase-2 grid point `(i0, j0)` raises and the optimisations of the grid
points before it ran to their end, the exception leaves `main`: phase 2 stops at that
point with the records of the `i0 * 6 + j0` earlier points in its two maps, no later grid
point is worked on, and the only stream handed to the sink is that of phase 1, written
before phase 2 began. -/
theorem error_in_phase2_leaves_main {σ : Type} (E : Externals σ) (fuel : Nat)
    (hJD : 0 < E.JULIAN_DAY) (i0 j0 : Nat) (hi : i0 ≤ 20) (hj : j0 ≤ 5)
    (hok : ∀ i j, j ≤ 5 → i * 6 + j < i0 * 6 + j0 →
      (optimise E fuel (phase2TOF E.JULIAN_DAY i)
        (phase2DepartureDate E.JULIAN_DAY j)).abort = none)
    (what : String)
    (hraise : (optimise E fuel (phase2TOF E.JULIAN_DAY i0)
      (phase2DepartureDate E.JULIAN_DAY j0)).abort = some (Abort.raised what)) :
    phase2 E fuel = phase2Stopped E fuel (i0 * 6 + j0) (Abort.raised what) ∧
    (main E fuel).exit = Exit.aborted (Abort.raised what) ∧
    (main E fuel).written = [("hodographicShapingGridSearch.dat", phase1 E)] := by
  have h6 := phase2EpochCount_eq _ hJD
  have h21 := phase2TofCount_eq _ hJD
  have hstop := phase2_stopped E fuel i0 j0 (by omega) (by omega)
    (fun i j hjj hlt => hok i j (by omega) (by rw [h6] at hlt; exact hlt))
    (Abort.raised what) hraise
  rw [h6] at hstop
  have hmain := main_stopped E fuel (Abort.raised what) (by rw [hstop]; rfl)
  exact ⟨hstop, by rw [hmain], by rw [hmain]⟩

theorem error_in_phase2_leaves_main_witness :
    (0 : ℚ) < (constantExternals 86400 costIsRevolutionCount
      (Except.error "evolve failed")).JULIAN_DAY ∧
    (optimise (constantExternals 86400 costIsRevolutionCount (Except.error "evolve failed")) 0
      (phase2TOF 86400 0) (phase2DepartureDate 86400 0)).abort =
        some (Abort.raised "evolve failed") ∧
    phase2 (constantExternals 86400 costIsRevolutionCount (Except.error "evolve failed")) 0 =
      phase2Stopped (constantExternals 86400 costIsRevolutionCount
        (Except.error "evolve failed")) 0 (0 * 6 + 0) (Abort.raised "evolve failed") ∧
    (main (constantExternals 86400 costIsRevolutionCount (Except.error "evolve failed")) 0).exit =
      Exit.aborted (Abort.raised "evolve failed") ∧
    (main (constantExternals 86400 costIsRevolutionCount
        (Except.error "evolve failed")) 0).written =
      [("hodographicShapingGridSearch.dat",
        phase1 (constantExternals 86400 costIsRevolutionCount (Except.error "evolve failed")))] :=
  ⟨by norm_num [constantExternals], rfl,
    error_in_phase2_leaves_main
      (constantExternals 86400 costIsRevolutionCount (Except.error "evolve failed")) 0
      (by norm_num [constantExternals]) 0 0 (by decide) (by decide)
      (fun i j _ h => absurd h (by omega)) "evolve failed" rfl⟩

/-- C7 as stated fails when `wait_check` raises at the first phase-2 grid point: the
campaign does not complete with three streams handed to the sink. -/
theorem raise_at_first_point_ends_campaign :
    ¬ ((main (constantExternals 86400 costIsRevolutionCount
          (Except.error "evolve failed")) 0).exit = Exit.returned 0 ∧
      (main (constantExternals 86400 costIsRevolutionCount
          (Except.error "evolve failed")) 0).written.length = 3) := by
  have hJD : (0 : ℚ) < (constantExternals 86400 costIsRevolutionCount
      (Except.error "evolve failed")).JULIAN_DAY := by
    norm_num [constantExternals]
  have hstop := phase2_stopped
    (constantExternals 86400 costIsRevolutionCount (Except.error "evolve failed")) 0 0 0
    (by rw [phase2TofCount_eq _ hJD]; decide) (by rw [phase2EpochCount_eq _ hJD]; decide)
    (fun i j _ h => absurd h (by omega)) (Abort.raised "evolve failed") rfl
  have hmain := main_stopped
    (constantExternals 86400 costIsRevolutionCount (Except.error "evolve failed")) 0
    (Abort.raised "evolve failed") (by rw [hstop]; rfl)
  rw [hmain]
  intro h
  exact absurd h.1 (by decide)

/-! ## The grid -/

/-- C8, as the code enumerates.  With bounds `[0,10]` and step 10 on both axes the loops
run for `i = 0, 1` and `j = 0, 1`, so the sweep of scenario A (revolution range `[0,1]`,
cost equal to the revolution count) stores four records, one per grid point of
`{0, 10} x {0, 10}`, each with `bestCost = 0` and `revolutionCount = 0`. -/
theorem scenarioA_stores_four_records :
    gridSearch (constantExternals 1 costIsRevolutionCount (Except.ok ())) 1 0 10 10 0 10 10 =
      [(1, [Double.fin 0, Double.fin 0, Double.fin 0, Double.fin 0]),
       (2, [Double.fin 0, Double.fin 10, Double.fin 0, Double.fin 0]),
       (3, [Double.fin 10, Double.fin 0, Double.fin 0, Double.fin 0]),
       (4, [Double.fin 10, Double.fin 10, Double.fin 0, Double.fin 0])] :=
  gridSearch_scenarioA

/-- C8 as stated fails: the sweep of scenario A does not store exactly one record. -/
theorem scenarioA_not_one_record :
    ¬ (gridSearch (constantExternals 1 costIsRevolutionCount (Except.ok ()))
        1 0 10 10 0 10 10).length = 1 := by
  rw [gridSearch_scenarioA]
  decide

/-- C9: a grid axis includes both bounds and stays between them.  For bounds
`min < max` and a step `step > 0` with `max - min = n * step`, the loop
`i <= ( max - min ) / step` runs for `i = 0, ..., n` with `n >= 1`, and the values `min + i * step`
start at `min`, end at `max` and lie in `[min, max]`.  For the configured grids, in days:
phase 1 has 301 times of flight from 500 to 2000 and 401 departure dates from 7304.5 to
10225.5; phase 2 has 21 times of flight from 500 to 900 and 6 departure dates from 7304.5
to 7379.5; all of them between their bounds. -/
theorem grid_axes_include_bounds (min max step JD : ℚ) (n : Nat) (hlt : min < max)
    (hstep : 0 < step) (hdiv : max - min = n * step) (hJD : 0 < JD) :
    (loopCount ((max - min) / step) = n + 1 ∧ 1 ≤ n ∧
      min + ((0 : Nat) : ℚ) * step = min ∧ min + (n : ℚ) * step = max ∧
      ∀ i : Nat, i < loopCount ((max - min) / step) →
        min ≤ min + (i : ℚ) * step ∧ min + (i : ℚ) * step ≤ max) ∧
    (phase1TofCount JD = 301 ∧ phase1TOF JD 0 / JD = 500 ∧ phase1TOF JD 300 / JD = 2000 ∧
      (∀ i : Nat, i ≤ 300 → 500 ≤ phase1TOF JD i / JD ∧ phase1TOF JD i / JD ≤ 2000) ∧
      phase1DepartureDate JD 0 / JD = 7304.5 ∧ phase1DepartureDate JD 400 / JD = 10225.5 ∧
      (∀ j : Nat, j ≤ 400 →
        7304.5 ≤ phase1DepartureDate JD j / JD ∧ phase1DepartureDate JD j / JD ≤ 10225.5)) ∧
    (phase2TofCount JD = 21 ∧ phase2TOF JD 0 / JD = 500 ∧ phase2TOF JD 20 / JD = 900 ∧
      (∀ i : Nat, i ≤ 20 → 500 ≤ phase2TOF JD i / JD ∧ phase2TOF JD i / JD ≤ 900) ∧
      phase2EpochCount JD = 6 ∧
      phase2DepartureDate JD 0 / JD = 7304.5 ∧ phase2DepartureDate JD 5 / JD = 7379.5 ∧
      (∀ j : Nat, j ≤ 5 →
        7304.5 ≤ phase2DepartureDate JD j / JD ∧ phase2DepartureDate JD j / JD ≤ 7379.5)) := by
  have hquot : (max - min) / step = (n : ℚ) := by
    rw [hdiv]
    field_simp
  have hn : 1 ≤ n := by
    rcases Nat.eq_zero_or_pos n with h0 | h0
    · rw [h0] at hdiv
      simp only [Nat.cast_zero, zero_mul] at hdiv
      linarith
    · exact h0
  refine ⟨⟨?_, hn, by simp, by linarith, ?_⟩, ⟨phase1TofCount_eq JD hJD, ?_, ?_, ?_, ?_, ?_, ?_⟩,
    ⟨phase2TofCount_eq JD hJD, ?_, ?_, ?_, phase2EpochCount_eq JD hJD, ?_, ?_, ?_⟩⟩
  · rw [hquot, loopCount_natCast]
  · intro i hi
    rw [hquot, loopCount_natCast] at hi
    have hin : (i : ℚ) ≤ (n : ℚ) := by exact_mod_cast Nat.lt_succ_iff.1 hi
    have h0 : (0 : ℚ) ≤ (i : ℚ) := Nat.cast_nonneg i
    constructor
    · nlinarith
    · nlinarith
  · rw [phase1TOF_days JD hJD]; norm_num
  · rw [phase1TOF_days JD hJD]; norm_num
  · intro i hi
    have hin : (i : ℚ) ≤ 300 := by exact_mod_cast hi
    have h0 : (0 : ℚ) ≤ (i : ℚ) := Nat.cast_nonneg i
    rw [phase1TOF_days JD hJD]
    constructor <;> linarith
  · rw [phase1DepartureDate_days JD hJD]; norm_num
  · rw [phase1DepartureDate_days JD hJD]; norm_num
  · intro j hj
    have hin : (j : ℚ) ≤ 400 := by exact_mod_cast hj
    have h0 : (0 : ℚ) ≤ (j : ℚ) := Nat.cast_nonneg j
    rw [phase1DepartureDate_days JD hJD]
    constructor <;> linarith
  · rw [phase2TOF_days JD hJD]; norm_num
  · rw [phase2TOF_days JD hJD]; norm_num
  · intro i hi
    have hin : (i : ℚ) ≤ 20 := by exact_mod_cast hi
    have h0 : (0 : ℚ) ≤ (i : ℚ) := Nat.cast_nonneg i
    rw [phase2TOF_days JD hJD]
    constructor <;> linarith
  · rw [phase2DepartureDate_days JD hJD]; norm_num
  · rw [phase2DepartureDate_days JD hJD]; norm_num
  · intro j hj
    have hin : (j : ℚ) ≤ 5 := by exact_mod_cast hj
    have h0 : (0 : ℚ) ≤ (j : ℚ) := Nat.cast_nonneg j
    rw [phase2DepartureDate_days JD hJD]
    constructor <;> linarith

theorem grid_axes_include_bounds_witness :
    (0 : ℚ) < 10 ∧ (10 : ℚ) - 0 = ((1 : Nat) : ℚ) * 10 ∧ (0 : ℚ) < 86400 ∧
    (loopCount (((10 : ℚ) - 0) / 10) = 1 + 1 ∧ 1 ≤ 1 ∧
      (0 : ℚ) + ((0 : Nat) : ℚ) * 10 = 0 ∧ (0 : ℚ) + ((1 : Nat) : ℚ) * 10 = 10 ∧
      ∀ i : Nat, i < loopCount (((10 : ℚ) - 0) / 10) →
        (0 : ℚ) ≤ 0 + (i : ℚ) * 10 ∧ (0 : ℚ) + (i : ℚ) * 10 ≤ 10) ∧
    phase1TofCount 86400 = 301 ∧ phase2TofCount 86400 = 21 ∧ phase2EpochCount 86400 = 6 := by
  have h := grid_axes_include_bounds 0 10 10 86400 1 (by norm_num) (by norm_num)
    (by norm_num) (by norm_num)
  exact ⟨by norm_num, by norm_num, by norm_num, h.1, h.2.1.1, h.2.2.1, h.2.2.2.2.2.2.1⟩

/-! ## The layout of a record -/

/-- C10: every record of the three result maps is the list of four coefficients
`[timeOfFlightDays, epochDays, bestCost, revolutionCount]` in this order, the first two
being the time of flight and the departure epoch of the grid point divided by
`JULIAN_DAY`.  In phase 1 the record of grid index `(i, j)` starts with `500 + 5 * i` and
`7304.5 + j * 2921 / 400` and goes on with the cost and the revolution count the
revolution loop ended on, and every record of phase 1 is one of these.  In phase 2 every
record of either map belongs to a grid index
`(i, j)`, starts with `500 + 20 * i` and `7304.5 + 15 * j`, goes on with the champion's
cost (higher-order map) or the low-order cost (low-order map) and ends with the fixed
revolution count 1. -/
theorem records_are_days_cost_revolutions {σ : Type} (E : Externals σ) (fuel : Nat)
    (hJD : 0 < E.JULIAN_DAY) :
    (∀ i j : Nat, i ≤ 300 → j ≤ 400 →
      mapFind (phase1 E) (((i * 401 + j : Nat) : Int) + 1) =
        some [Double.fin (phase1TOF E.JULIAN_DAY i / E.JULIAN_DAY),
          Double.fin (phase1DepartureDate E.JULIAN_DAY j / E.JULIAN_DAY),
          (revolutionSweep 5 (E.computeDeltaV (phase1TOF E.JULIAN_DAY i)
            (phase1DepartureDate E.JULIAN_DAY j)) E.uninitialised).2,
          Double.fin ((revolutionSweep 5 (E.computeDeltaV (phase1TOF E.JULIAN_DAY i)
            (phase1DepartureDate E.JULIAN_DAY j)) E.uninitialised).1 : ℚ)] ∧
      phase1TOF E.JULIAN_DAY i / E.JULIAN_DAY = 500 + 5 * i ∧
      phase1DepartureDate E.JULIAN_DAY j / E.JULIAN_DAY = 7304.5 + j * 2921 / 400) ∧
    (∀ p ∈ phase1 E, ∃ i j : Nat, i ≤ 300 ∧ j ≤ 400 ∧
      p.2 = [Double.fin (phase1TOF E.JULIAN_DAY i / E.JULIAN_DAY),
        Double.fin (phase1DepartureDate E.JULIAN_DAY j / E.JULIAN_DAY),
        (revolutionSweep 5 (E.computeDeltaV (phase1TOF E.JULIAN_DAY i)
          (phase1DepartureDate E.JULIAN_DAY j)) E.uninitialised).2,
        Double.fin ((revolutionSweep 5 (E.computeDeltaV (phase1TOF E.JULIAN_DAY i)
          (phase1DepartureDate E.JULIAN_DAY j)) E.uninitialised).1 : ℚ)]) ∧
    (∀ p ∈ (phase2 E fuel).higherOrder, ∃ i j : Nat, i ≤ 20 ∧ j ≤ 5 ∧
      p.2 = [Double.fin (phase2TOF E.JULIAN_DAY i / E.JULIAN_DAY),
        Double.fin (phase2DepartureDate E.JULIAN_DAY j / E.JULIAN_DAY),
        E.champion_f (optimise E fuel (phase2TOF E.JULIAN_DAY i)
          (phase2DepartureDate E.JULIAN_DAY j)).isl,
        Double.fin 1] ∧
      phase2TOF E.JULIAN_DAY i / E.JULIAN_DAY = 500 + 20 * i ∧
      phase2DepartureDate E.JULIAN_DAY j / E.JULIAN_DAY = 7304.5 + 15 * j) ∧
    (∀ p ∈ (phase2 E fuel).lowOrder, ∃ i j : Nat, i ≤ 20 ∧ j ≤ 5 ∧
      p.2 = [Double.fin (phase2TOF E.JULIAN_DAY i / E.JULIAN_DAY),
        Double.fin (phase2DepartureDate E.JULIAN_DAY j / E.JULIAN_DAY),
        E.lowOrderDeltaV (phase2TOF E.JULIAN_DAY i) (phase2DepartureDate E.JULIAN_DAY j),
        Double.fin 1] ∧
      phase2TOF E.JULIAN_DAY i / E.JULIAN_DAY = 500 + 20 * i ∧
      phase2DepartureDate E.JULIAN_DAY j / E.JULIAN_DAY = 7304.5 + 15 * j) := by
  have h6 := phase2EpochCount_eq _ hJD
  have h21 := phase2TofCount_eq _ hJD
  refine ⟨fun i j hi hj => ⟨phase1_record E hJD i j hi hj, phase1TOF_days _ hJD i,
    phase1DepartureDate_days _ hJD j⟩, ?_, ?_, ?_⟩
  · intro p hp
    rw [phase1_eq E hJD] at hp
    simp only [gridEntries, List.mem_map, List.mem_range] at hp
    obtain ⟨k, hk, rfl⟩ := hp
    exact ⟨k / 401, k % 401, by omega, by omega, rfl⟩
  · apply phase2_invariant E fuel (fun st => ∀ p ∈ st.higherOrder, ∃ i j : Nat, i ≤ 20 ∧ j ≤ 5 ∧
      p.2 = [Double.fin (phase2TOF E.JULIAN_DAY i / E.JULIAN_DAY),
        Double.fin (phase2DepartureDate E.JULIAN_DAY j / E.JULIAN_DAY),
        E.champion_f (optimise E fuel (phase2TOF E.JULIAN_DAY i)
          (phase2DepartureDate E.JULIAN_DAY j)).isl,
        Double.fin 1] ∧
      phase2TOF E.JULIAN_DAY i / E.JULIAN_DAY = 500 + 20 * i ∧
      phase2DepartureDate E.JULIAN_DAY j / E.JULIAN_DAY = 7304.5 + 15 * j)
    · intro p hp
      cases hp
    · intro i j st hi hj hP
      cases hst : st.abort with
      | some a => rw [phase2Point_aborted E fuel _ _ st a hst]; exact hP
      | none =>
        cases hrun : (optimise E fuel (phase2TOF E.JULIAN_DAY i)
            (phase2DepartureDate E.JULIAN_DAY j)).abort with
        | some a => rw [phase2Point_fail E fuel _ _ st a hst hrun]; exact hP
        | none =>
          rw [phase2Point_ok E fuel _ _ st hst hrun]
          intro p hp
          rcases mem_mapAssign _ _ _ _ hp with h | h
          · exact ⟨i, j, by omega, by omega, by rw [h]; rfl, phase2TOF_days _ hJD i,
              phase2DepartureDate_days _ hJD j⟩
          · exact hP p h
  · apply phase2_invariant E fuel (fun st => ∀ p ∈ st.lowOrder, ∃ i j : Nat, i ≤ 20 ∧ j ≤ 5 ∧
      p.2 = [Double.fin (phase2TOF E.JULIAN_DAY i / E.JULIAN_DAY),
        Double.fin (phase2DepartureDate E.JULIAN_DAY j / E.JULIAN_DAY),
        E.lowOrderDeltaV (phase2TOF E.JULIAN_DAY i) (phase2DepartureDate E.JULIAN_DAY j),
        Double.fin 1] ∧
      phase2TOF E.JULIAN_DAY i / E.JULIAN_DAY = 500 + 20 * i ∧
      phase2DepartureDate E.JULIAN_DAY j / E.JULIAN_DAY = 7304.5 + 15 * j)
    · intro p hp
      cases hp
    · intro i j st hi hj hP
      cases hst : st.abort with
      | some a => rw [phase2Point_aborted E fuel _ _ st a hst]; exact hP
      | none =>
        cases hrun : (optimise E fuel (phase2TOF E.JULIAN_DAY i)
            (phase2DepartureDate E.JULIAN_DAY j)).abort with
        | some a => rw [phase2Point_fail E fuel _ _ st a hst hrun]; exact hP
        | none =>
          rw [phase2Point_ok E fuel _ _ st hst hrun]
          intro p hp
          rcases mem_mapAssign _ _ _ _ hp with h | h
          · exact ⟨i, j, by omega, by omega, by rw [h]; rfl, phase2TOF_days _ hJD i,
              phase2DepartureDate_days _ hJD j⟩
          · exact hP p h

theorem records_are_days_cost_revolutions_witness :
    (0 : ℚ) < (constantExternals 86400 costIsRevolutionCount (Except.ok ())).JULIAN_DAY ∧
    mapFind (phase1 (constantExternals 86400 costIsRevolutionCount (Except.ok ())))
        (((1 * 401 + 400 : Nat) : Int) + 1) =
      some [Double.fin (phase1TOF 86400 1 / 86400),
        Double.fin (phase1DepartureDate 86400 400 / 86400),
        (revolutionSweep 5 costIsRevolutionCount (7, Double.fin (-1))).2,
        Double.fin ((revolutionSweep 5 costIsRevolutionCount (7, Double.fin (-1))).1 : ℚ)] ∧
    phase1TOF 86400 1 / 86400 = 500 + 5 * ((1 : Nat) : ℚ) ∧
    phase1DepartureDate 86400 400 / 86400 = 7304.5 + ((400 : Nat) : ℚ) * 2921 / 400 :=
  ⟨by norm_num [constantExternals],
    (records_are_days_cost_revolutions
      (constantExternals 86400 costIsRevolutionCount (Except.ok ())) 0
      (by norm_num [constantExternals])).1 1 400 (by decide) (by decide)⟩

/-! ## The evolve loop -/

theorem waitCondition_abort {σ : Type} (E : Externals σ) (run : IslandRun σ) :
    (waitCondition E run).2.abort = run.abort := by
  unfold waitCondition
  dsimp only
  split_ifs <;> rfl

theorem waitCondition_count {σ : Type} (E : Externals σ) (run : IslandRun σ) :
    (waitCondition E run).2.calls.count IslandCall.evolve =
      run.calls.count IslandCall.evolve := by
  unfold waitCondition
  dsimp only
  split_ifs <;> simp [List.count_append, List.count_cons]

theorem waitLoop_count {σ : Type} (E : Externals σ) (fuel : Nat) (run : IslandRun σ) :
    (waitLoop E fuel run).calls.count IslandCall.evolve =
      run.calls.count IslandCall.evolve := by
  induction fuel generalizing run with
  | zero =>
    unfold waitLoop
    dsimp only
    split_ifs
    · exact waitCondition_count E run
    · exact waitCondition_count E run
  | succ fuel ih =>
    unfold waitLoop
    dsimp only
    split_ifs
    · rw [ih]
      simp [List.count_append, List.count_cons, waitCondition_count]
    · exact waitCondition_count E run

theorem evolveRound_aborted {σ : Type} (E : Externals σ) (fuel : Nat) (run : IslandRun σ)
    (a : Abort) (h : run.abort = some a) : evolveRound E fuel run = run := by
  unfold evolveRound
  rw [h]

theorem evolveRound_count {σ : Type} (E : Externals σ) (fuel : Nat) (run : IslandRun σ)
    (h : run.abort = none) :
    (evolveRound E fuel run).calls.count IslandCall.evolve =
      run.calls.count IslandCall.evolve + 1 := by
  have hw := waitLoop_count E fuel
    { isl := E.evolve run.isl, calls := run.calls ++ [IslandCall.evolve], abort := none }
  simp only [List.count_append, List.count_cons, List.count_nil, beq_self_eq_true,
    if_true, Nat.zero_add] at hw
  unfold evolveRound
  rw [h]
  simp only
  split
  · exact hw
  · split <;> simp [List.count_append, List.count_cons, hw]

/-- After `n` passes of the body of the evolve loop that left no reason to stop, `evolve`
has been called `n` more times. -/
theorem evolveRounds_count {σ : Type} (E : Externals σ) (fuel : Nat) (run : IslandRun σ)
    (n : Nat)
    (h : ((List.range n).foldl (fun run _ => evolveRound E fuel run) run).abort = none) :
    ((List.range n).foldl (fun run _ => evolveRound E fuel run) run).calls.count
        IslandCall.evolve = run.calls.count IslandCall.evolve + n := by
  induction n with
  | zero => simp
  | succ n ih =>
    rw [List.range_succ, List.foldl_append] at h ⊢
    simp only [List.foldl_cons, List.foldl_nil] at h ⊢
    cases hprev : ((List.range n).foldl (fun run _ => evolveRound E fuel run) run).abort with
    | some a =>
      rw [evolveRound_aborted E fuel _ a hprev, hprev] at h
      cases h
    | none =>
      rw [evolveRound_count E fuel _ hprev, ih hprev, Nat.add_assoc]

theorem evolveRound_constant (JD : ℚ) (dv : Nat → Double) (fuel : Nat)
    (u : Unit) (calls : List IslandCall) :
    evolveRound (constantExternals JD dv (Except.ok ())) fuel
        { isl := u, calls := calls, abort := none } =
      { isl := (),
        calls := calls ++
          [IslandCall.evolve, IslandCall.status EvolveStatus.idle, IslandCall.wait_check],
        abort := none } := by
  cases fuel <;>
    simp [evolveRound, waitLoop, waitCondition, constantExternals, List.append_assoc]

theorem optimise_constant_calls (JD : ℚ) (dv : Nat → Double) (fuel : Nat) (tof epoch : ℚ) :
    (optimise (constantExternals JD dv (Except.ok ())) fuel tof epoch).calls =
      [IslandCall.evolve, IslandCall.status EvolveStatus.idle, IslandCall.wait_check,
       IslandCall.evolve, IslandCall.status EvolveStatus.idle, IslandCall.wait_check,
       IslandCall.evolve, IslandCall.status EvolveStatus.idle, IslandCall.wait_check,
       IslandCall.evolve, IslandCall.status EvolveStatus.idle, IslandCall.wait_check,
       IslandCall.evolve, IslandCall.status EvolveStatus.idle, IslandCall.wait_check,
       IslandCall.evolve, IslandCall.status EvolveStatus.idle, IslandCall.wait_check,
       IslandCall.evolve, IslandCall.status EvolveStatus.idle, IslandCall.wait_check,
       IslandCall.evolve, IslandCall.status EvolveStatus.idle, IslandCall.wait_check,
       IslandCall.evolve, IslandCall.status EvolveStatus.idle, IslandCall.wait_check,
       IslandCall.evolve, IslandCall.status EvolveStatus.idle, IslandCall.wait_check] := by
  simp [optimise, evolveLoop, List.range_succ, evolveRound_constant]

/-- C11, on the code: at a phase-2 grid point whose evolve loop is left by its end, the
loop of line 287 (`i < 10`) has called `evolve` exactly 10 times before the champion is
read, not the 100 times of the claim and of the comment "Evolve for 100 generations". -/
theorem evolve_loop_issues_ten_rounds {σ : Type} (E : Externals σ) (fuel : Nat)
    (tof epoch : ℚ) (h : (optimise E fuel tof epoch).abort = none) :
    (optimise E fuel tof epoch).calls.count IslandCall.evolve = 10 ∧
    (optimise E fuel tof epoch).calls.count IslandCall.evolve ≠ 100 := by
  have hc := evolveRounds_count E fuel
    { isl := E.island tof epoch, calls := [], abort := none } 10 h
  have h10 : (optimise E fuel tof epoch).calls.count IslandCall.evolve = 10 := by
    simpa [optimise, evolveLoop] using hc
  exact ⟨h10, by rw [h10]; decide⟩

theorem evolve_loop_issues_ten_rounds_witness :
    (optimise (constantExternals 86400 costIsRevolutionCount (Except.ok ())) 0
      (phase2TOF 86400 0) (phase2DepartureDate 86400 0)).abort = none ∧
    (optimise (constantExternals 86400 costIsRevolutionCount (Except.ok ())) 0
      (phase2TOF 86400 0) (phase2DepartureDate 86400 0)).calls.count IslandCall.evolve = 10 ∧
    (optimise (constantExternals 86400 costIsRevolutionCount (Except.ok ())) 0
      (phase2TOF 86400 0) (phase2DepartureDate 86400 0)).calls.count IslandCall.evolve ≠ 100 :=
  ⟨rfl, evolve_loop_issues_ten_rounds
    (constantExternals 86400 costIsRevolutionCount (Except.ok ())) 0
    (phase2TOF 86400 0) (phase2DepartureDate 86400 0) rfl⟩

/-! ## The calls of a grid point respect the generation barrier -/

theorem barrierRun_append (p : RoundPhase) (l1 l2 : List IslandCall) :
    barrierRun p (l1 ++ l2) = (barrierRun p l1).bind (fun q => barrierRun q l2) := by
  induction l1 generalizing p with
  | nil => rfl
  | cons c rest ih =>
    simp only [List.cons_append, barrierRun]
    cases barrierStep p c with
    | none => rfl
    | some q => exact ih q

theorem barrierStep_status (p : RoundPhase) (s : EvolveStatus)
    (hp : p = RoundPhase.running ∨ p = RoundPhase.quiet) :
    barrierStep p (IslandCall.status s) =
      some (if isQuiet s then RoundPhase.quiet else RoundPhase.running) := by
  rcases hp with rfl | rfl <;> rfl

theorem barrierStep_wait (p : RoundPhase)
    (hp : p = RoundPhase.running ∨ p = RoundPhase.quiet) :
    barrierStep p IslandCall.wait = some RoundPhase.running := by
  rcases hp with rfl | rfl <;> rfl

theorem polled_phase (s : EvolveStatus) :
    (if isQuiet s then RoundPhase.quiet else RoundPhase.running) = RoundPhase.running ∨
      (if isQuiet s then RoundPhase.quiet else RoundPhase.running) = RoundPhase.quiet := by
  split_ifs
  · exact Or.inr rfl
  · exact Or.inl rfl

theorem waitCondition_run {σ : Type} (E : Externals σ) (run : IslandRun σ) (p : RoundPhase)
    (hrun : barrierRun RoundPhase.fresh run.calls = some p)
    (hp : p = RoundPhase.running ∨ p = RoundPhase.quiet) :
    ∃ q, barrierRun RoundPhase.fresh (waitCondition E run).2.calls = some q ∧
      (q = RoundPhase.running ∨ q = RoundPhase.quiet) ∧
      ((waitCondition E run).1 = false → q = RoundPhase.quiet) := by
  unfold waitCondition
  dsimp only
  split_ifs with h1
  · refine ⟨RoundPhase.quiet, ?_, Or.inr rfl, fun _ => rfl⟩
    rw [barrierRun_append, hrun, h1]
    simp [barrierRun, barrierStep_status p _ hp, isQuiet]
  · refine ⟨if isQuiet (E.status (E.status run.isl).2).1 then RoundPhase.quiet
      else RoundPhase.running, ?_, polled_phase _, ?_⟩
    · rw [barrierRun_append, hrun]
      simp [barrierRun, barrierStep_status p _ hp, barrierStep_status _ _ (polled_phase _)]
    · intro hc
      have hs : (E.status (E.status run.isl).2).1 = EvolveStatus.idle_error := by
        simpa using hc
      simp [hs, isQuiet]

theorem waitLoop_run {σ : Type} (E : Externals σ) (fuel : Nat) (run : IslandRun σ)
    (p : RoundPhase) (hrun : barrierRun RoundPhase.fresh run.calls = some p)
    (hp : p = RoundPhase.running ∨ p = RoundPhase.quiet) :
    ∃ q, barrierRun RoundPhase.fresh (waitLoop E fuel run).calls = some q ∧
      (q = RoundPhase.running ∨ q = RoundPhase.quiet) ∧
      ((waitLoop E fuel run).abort = none → q = RoundPhase.quiet) := by
  induction fuel generalizing run p with
  | zero =>
    obtain ⟨q, hq, hq2, hq3⟩ := waitCondition_run E run p hrun hp
    unfold waitLoop
    dsimp only
    split_ifs with hc
    · exact ⟨q, hq, hq2, fun h => by cases h⟩
    · exact ⟨q, hq, hq2, fun _ => hq3 (by simpa using hc)⟩
  | succ fuel ih =>
    obtain ⟨q, hq, hq2, hq3⟩ := waitCondition_run E run p hrun hp
    unfold waitLoop
    dsimp only
    split_ifs with hc
    · apply ih _ RoundPhase.running _ (Or.inl rfl)
      rw [barrierRun_append, hq]
      simp [barrierRun, barrierStep_wait q hq2]
    · exact ⟨q, hq, hq2, fun _ => hq3 (by simpa using hc)⟩

theorem evolveRound_run {σ : Type} (E : Externals σ) (fuel : Nat) (run : IslandRun σ)
    (p : RoundPhase) (hab : run.abort = none)
    (hrun : barrierRun RoundPhase.fresh run.calls = some p)
    (hp : p = RoundPhase.fresh ∨ p = RoundPhase.checked) :
    ∃ q, barrierRun RoundPhase.fresh (evolveRound E fuel run).calls = some q ∧
      ((evolveRound E fuel run).abort = none → q = RoundPhase.checked) := by
  have hstart : barrierRun RoundPhase.fresh (run.calls ++ [IslandCall.evolve]) =
      some RoundPhase.running := by
    rw [barrierRun_append, hrun]
    rcases hp with rfl | rfl <;> rfl
  obtain ⟨q, hq, _, hq3⟩ := waitLoop_run E fuel
    { isl := E.evolve run.isl, calls := run.calls ++ [IslandCall.evolve], abort := none }
    RoundPhase.running hstart (Or.inl rfl)
  unfold evolveRound
  rw [hab]
  dsimp only
  split
  · rename_i a hwa
    exact ⟨q, hq, fun h => by rw [hwa] at h; cases h⟩
  · rename_i hwa
    have hquiet := hq3 hwa
    subst hquiet
    split
    · refine ⟨RoundPhase.checked, ?_, fun h => by cases h⟩
      rw [barrierRun_append, hq]
      rfl
    · refine ⟨RoundPhase.checked, ?_, fun _ => rfl⟩
      rw [barrierRun_append, hq]
      rfl

theorem evolveRounds_run {σ : Type} (E : Externals σ) (fuel : Nat) (isl : σ) (n : Nat) :
    ∃ q, barrierRun RoundPhase.fresh
        ((List.range n).foldl (fun run _ => evolveRound E fuel run)
          { isl := isl, calls := [], abort := none }).calls = some q ∧
      (((List.range n).foldl (fun run _ => evolveRound E fuel run)
          { isl := isl, calls := [], abort := none }).abort = none →
        q = if n = 0 then RoundPhase.fresh else RoundPhase.checked) := by
  induction n with
  | zero => exact ⟨RoundPhase.fresh, rfl, fun _ => rfl⟩
  | succ n ih =>
    obtain ⟨q, hq, hq2⟩ := ih
    rw [List.range_succ, List.foldl_append]
    simp only [List.foldl_cons, List.foldl_nil]
    cases hprev : ((List.range n).foldl (fun run _ => evolveRound E fuel run)
        { isl := isl, calls := [], abort := none }).abort with
    | some a =>
      rw [evolveRound_aborted E fuel _ a hprev]
      exact ⟨q, hq, fun h => by rw [hprev] at h; cases h⟩
    | none =>
      have hq' := hq2 hprev
      obtain ⟨q2, hq3, hq4⟩ := evolveRound_run E fuel _ q hprev hq (by
        rw [hq']
        split_ifs
        · exact Or.inl rfl
        · exact Or.inr rfl)
      exact ⟨q2, hq3, fun h => by rw [hq4 h]; simp⟩

/-- Every call of a grid point is allowed where it stands. -/
theorem pointCalls_run {σ : Type} (E : Externals σ) (fuel : Nat) (tof epoch : ℚ) :
    ∃ q, barrierRun RoundPhase.fresh (pointCalls E fuel tof epoch) = some q := by
  obtain ⟨q, hq, hq2⟩ := evolveRounds_run E fuel (E.island tof epoch) 10
  have hopt : optimise E fuel tof epoch =
      (List.range 10).foldl (fun run _ => evolveRound E fuel run)
        { isl := E.island tof epoch, calls := [], abort := none } := rfl
  unfold pointCalls
  cases hab : (optimise E fuel tof epoch).abort with
  | some a =>
    exact ⟨q, by rw [hopt]; exact hq⟩
  | none =>
    refine ⟨RoundPhase.done, ?_⟩
    rw [hopt] at hab
    have hq' := hq2 hab
    simp only [Nat.succ_ne_zero, if_false] at hq'
    dsimp only
    rw [barrierRun_append, hopt, hq, hq']
    rfl

theorem append_singleton_split {α : Type} (l pre post : List α) (c x : α)
    (h : l ++ [c] = pre ++ x :: post) :
    (post = [] ∧ pre = l ∧ x = c) ∨ ∃ post', post = post' ++ [c] ∧ l = pre ++ x :: post' := by
  rcases List.eq_nil_or_concat post with hp | ⟨L, b, hp⟩
  · subst hp
    have h2 := List.append_inj' h rfl
    exact Or.inl ⟨rfl, h2.1.symm, by simpa using h2.2.symm⟩
  · subst hp
    have h3 : l ++ [c] = (pre ++ x :: L) ++ [b] := by simpa using h
    have h2 := List.append_inj' h3 rfl
    have hcb : c = b := by simpa using h2.2
    exact Or.inr ⟨L, by rw [hcb, List.concat_eq_append], h2.1⟩

theorem barrierRun_concat (l : List IslandCall) (c : IslandCall) (q' : RoundPhase)
    (h : barrierRun RoundPhase.fresh (l ++ [c]) = some q') :
    ∃ q, barrierRun RoundPhase.fresh l = some q ∧ barrierStep q c = some q' := by
  rw [barrierRun_append] at h
  cases hq : barrierRun RoundPhase.fresh l with
  | none => rw [hq] at h; cases h
  | some q =>
    rw [hq] at h
    refine ⟨q, rfl, ?_⟩
    simp only [Option.bind, barrierRun] at h
    cases hs : barrierStep q c with
    | none => rw [hs] at h; cases h
    | some r => rw [hs] at h; exact h

theorem mem_poll_concat (b : List IslandCall) (x : IslandCall) (hx : isPoll x = true)
    (hb : ∀ c ∈ b, isPoll c = true) : ∀ c ∈ b ++ [x], isPoll c = true := by
  intro c hc
  rcases List.mem_append.1 hc with h | h
  · exact hb c h
  · rw [List.mem_singleton.1 h]
    exact hx

theorem barrierStep_shape (q q' : RoundPhase) (c : IslandCall) (l : List IslandCall)
    (hstep : barrierStep q c = some q') (hshape : PhaseShape q l) :
    PhaseShape q' (l ++ [c]) := by
  cases q <;> cases c <;> simp only [barrierStep, Option.some.injEq] at hstep <;>
    try exact absurd hstep (by simp)
  case fresh.evolve =>
    subst hstep
    exact ⟨l, [], rfl, by simp⟩
  case checked.evolve =>
    subst hstep
    exact ⟨l, [], rfl, by simp⟩
  case checked.champion_f =>
    subst hstep
    obtain ⟨pre, s, hl, _⟩ := hshape
    exact ⟨pre ++ [IslandCall.status s], by simp [hl]⟩
  case running.wait =>
    subst hstep
    obtain ⟨a, b, hl, hb⟩ := hshape
    exact ⟨a, b ++ [IslandCall.wait], by simp [hl], mem_poll_concat b _ rfl hb⟩
  case quiet.wait =>
    subst hstep
    obtain ⟨a, b, s0, hl, _, hb⟩ := hshape
    exact ⟨a, (b ++ [IslandCall.status s0]) ++ [IslandCall.wait], by simp [hl],
      mem_poll_concat _ _ rfl (mem_poll_concat b _ rfl hb)⟩
  case quiet.wait_check =>
    subst hstep
    obtain ⟨a, b, s0, hl, hs, _⟩ := hshape
    exact ⟨a ++ IslandCall.evolve :: b, s0, by simp [hl], hs⟩
  case running.status s =>
    obtain ⟨a, b, hl, hb⟩ := hshape
    by_cases hs : isQuiet s = true
    · rw [if_pos hs] at hstep
      subst hstep
      exact ⟨a, b, s, by simp [hl], hs, hb⟩
    · rw [if_neg hs] at hstep
      subst hstep
      exact ⟨a, b ++ [IslandCall.status s], by simp [hl], mem_poll_concat b _ rfl hb⟩
  case quiet.status s =>
    obtain ⟨a, b, s0, hl, _, hb⟩ := hshape
    by_cases hs : isQuiet s = true
    · rw [if_pos hs] at hstep
      subst hstep
      exact ⟨a, b ++ [IslandCall.status s0], s, by simp [hl], hs,
        mem_poll_concat b _ rfl hb⟩
    · rw [if_neg hs] at hstep
      subst hstep
      exact ⟨a, (b ++ [IslandCall.status s0]) ++ [IslandCall.status s], by simp [hl],
        mem_poll_concat _ _ rfl (mem_poll_concat b _ rfl hb)⟩

theorem barrier_shape (l : List IslandCall) :
    ∀ q, barrierRun RoundPhase.fresh l = some q → GenerationBarrier l ∧ PhaseShape q l := by
  induction l using List.reverseRecOn with
  | nil =>
    intro q h
    simp only [barrierRun, Option.some.injEq] at h
    subst h
    exact ⟨⟨fun pre post h => absurd h (by simp), fun pre post h => absurd h (by simp),
      fun pre post h => absurd h (by simp)⟩, rfl⟩
  | append_singleton l c ih =>
    intro q' h
    obtain ⟨q, hq, hstep⟩ := barrierRun_concat l c q' h
    obtain ⟨⟨h1, h2, h3⟩, hshape⟩ := ih q hq
    refine ⟨⟨?_, ?_, ?_⟩, ?_⟩
    · intro pre post hl
      rcases append_singleton_split l pre post c _ hl with ⟨_, hpre, hx⟩ | ⟨post', _, hl'⟩
      · subst hpre
        subst hx
        cases q <;> simp [barrierStep] at hstep
        · exact Or.inl hshape
        · exact Or.inr hshape
      · exact h1 pre post' hl'
    · intro pre post hl
      rcases append_singleton_split l pre post c _ hl with ⟨_, hpre, hx⟩ | ⟨post', _, hl'⟩
      · subst hpre
        subst hx
        cases q <;> simp [barrierStep] at hstep
        exact hshape
      · exact h2 pre post' hl'
    · intro pre post hl
      rcases append_singleton_split l pre post c _ hl with ⟨hpost, hpre, hx⟩ | ⟨post', _, hl'⟩
      · subst hpre
        subst hx
        cases q <;> simp [barrierStep] at hstep
        obtain ⟨pre', s, hl2, _⟩ := hshape
        exact ⟨hpost, pre' ++ [IslandCall.status s], by simp [hl2]⟩
      · obtain ⟨hnil, _⟩ := h3 pre post' hl'
        subst hnil
        rw [hl'] at hq
        obtain ⟨q0, _, hs0⟩ := barrierRun_concat pre IslandCall.champion_f q hq
        cases q0 <;> simp [barrierStep] at hs0
        subst hs0
        cases c <;> simp [barrierStep] at hstep
    · exact barrierStep_shape q q' c l hstep hshape

theorem isQuiet_iff (s : EvolveStatus) :
    isQuiet s = true ↔ s = EvolveStatus.idle ∨ s = EvolveStatus.idle_error := by
  cases s <;> simp [isQuiet]

theorem isPoll_iff (c : IslandCall) :
    isPoll c = true ↔ c = IslandCall.wait ∨ ∃ s, c = IslandCall.status s := by
  cases c <;> simp [isPoll]

theorem pointCalls_constant (JD : ℚ) (dv : Nat → Double) (fuel : Nat) (tof epoch : ℚ) :
    pointCalls (constantExternals JD dv (Except.ok ())) fuel tof epoch =
      [IslandCall.evolve, IslandCall.status EvolveStatus.idle, IslandCall.wait_check] ++
      IslandCall.evolve ::
      [IslandCall.status EvolveStatus.idle, IslandCall.wait_check,
       IslandCall.evolve, IslandCall.status EvolveStatus.idle, IslandCall.wait_check,
       IslandCall.evolve, IslandCall.status EvolveStatus.idle, IslandCall.wait_check,
       IslandCall.evolve, IslandCall.status EvolveStatus.idle, IslandCall.wait_check,
       IslandCall.evolve, IslandCall.status EvolveStatus.idle, IslandCall.wait_check,
       IslandCall.evolve, IslandCall.status EvolveStatus.idle, IslandCall.wait_check,
       IslandCall.evolve, IslandCall.status EvolveStatus.idle, IslandCall.wait_check,
       IslandCall.evolve, IslandCall.status EvolveStatus.idle, IslandCall.wait_check,
       IslandCall.evolve, IslandCall.status EvolveStatus.idle, IslandCall.wait_check,
       IslandCall.champion_f] := by
  unfold pointCalls
  simp only [optimise_constant_ok, optimise_constant_calls]
  rfl

/-- C13: every round of the phase-2 evolve loop is a synchronous generation barrier.  In
the sequence of calls made on the island of a grid point, however far the run gets:
(1) an `evolve` is either the first call or comes right after the `wait_check` of the
round before, itself made right after a status call that returned `idle` or
`idle_error`, so no round starts while the island was last seen in another status;
(2) every `wait_check` comes after the `evolve` of its round, with only `status` and
`wait` calls in between, the last of them a status call that returned `idle` or
`idle_error`; (3) the champion is read last and right after a `wait_check`. -/
theorem evolve_rounds_are_generation_barriers {σ : Type} (E : Externals σ) (fuel : Nat)
    (tof epoch : ℚ) :
    (∀ pre post, pointCalls E fuel tof epoch = pre ++ IslandCall.evolve :: post →
      pre = [] ∨ ∃ pre' s, pre = pre' ++ [IslandCall.status s, IslandCall.wait_check] ∧
        (s = EvolveStatus.idle ∨ s = EvolveStatus.idle_error)) ∧
    (∀ pre post, pointCalls E fuel tof epoch = pre ++ IslandCall.wait_check :: post →
      ∃ a b s, pre = a ++ IslandCall.evolve :: (b ++ [IslandCall.status s]) ∧
        (s = EvolveStatus.idle ∨ s = EvolveStatus.idle_error) ∧
        ∀ c ∈ b, c = IslandCall.wait ∨ ∃ s', c = IslandCall.status s') ∧
    (∀ pre post, pointCalls E fuel tof epoch = pre ++ IslandCall.champion_f :: post →
      post = [] ∧ ∃ pre', pre = pre' ++ [IslandCall.wait_check]) := by
  obtain ⟨q, hq⟩ := pointCalls_run E fuel tof epoch
  obtain ⟨⟨h1, h2, h3⟩, _⟩ := barrier_shape _ q hq
  refine ⟨?_, ?_, h3⟩
  · intro pre post h
    rcases h1 pre post h with hnil | ⟨pre', s, hpre, hs⟩
    · exact Or.inl hnil
    · exact Or.inr ⟨pre', s, hpre, (isQuiet_iff s).1 hs⟩
  · intro pre post h
    obtain ⟨a, b, s, hpre, hs, hb⟩ := h2 pre post h
    exact ⟨a, b, s, hpre, (isQuiet_iff s).1 hs, fun c hc => (isPoll_iff c).1 (hb c hc)⟩

theorem evolve_rounds_are_generation_barriers_witness :
    pointCalls (constantExternals 86400 costIsRevolutionCount (Except.ok ())) 0
        (phase2TOF 86400 0) (phase2DepartureDate 86400 0) =
      [IslandCall.evolve, IslandCall.status EvolveStatus.idle, IslandCall.wait_check] ++
      IslandCall.evolve ::
      [IslandCall.status EvolveStatus.idle, IslandCall.wait_check,
       IslandCall.evolve, IslandCall.status EvolveStatus.idle, IslandCall.wait_check,
       IslandCall.evolve, IslandCall.status EvolveStatus.idle, IslandCall.wait_check,
       IslandCall.evolve, IslandCall.status EvolveStatus.idle, IslandCall.wait_check,
       IslandCall.evolve, IslandCall.status EvolveStatus.idle, IslandCall.wait_check,
       IslandCall.evolve, IslandCall.status EvolveStatus.idle, IslandCall.wait_check,
       IslandCall.evolve, IslandCall.status EvolveStatus.idle, IslandCall.wait_check,
       IslandCall.evolve, IslandCall.status EvolveStatus.idle, IslandCall.wait_check,
       IslandCall.evolve, IslandCall.status EvolveStatus.idle, IslandCall.wait_check,
       IslandCall.champion_f] ∧
    (([IslandCall.evolve, IslandCall.status EvolveStatus.idle, IslandCall.wait_check] :
        List IslandCall) = [] ∨
      ∃ pre' s, [IslandCall.evolve, IslandCall.status EvolveStatus.idle, IslandCall.wait_check] =
          pre' ++ [IslandCall.status s, IslandCall.wait_check] ∧
        (s = EvolveStatus.idle ∨ s = EvolveStatus.idle_error)) :=
  ⟨pointCalls_constant _ _ _ _ _,
    (evolve_rounds_are_generation_barriers
      (constantExternals 86400 costIsRevolutionCount (Except.ok ())) 0
      (phase2TOF 86400 0) (phase2DepartureDate 86400 0)).1 _ _ (pointCalls_constant _ _ _ _ _)⟩

end LowThrust

namespace Tudat

/-! ## The command line of `tudat` -/

theorem isOptionElement_of_data (arg : String) (c : Char) (cs : List Char)
    (h : arg.data = '-' :: c :: cs) : isOptionElement arg = true := by
  unfold isOptionElement
  rw [h]
  rfl

theorem getopt_long_ne_iff (l : List String) : getopt_long l ≠ -1 ↔ optionsOf l ≠ [] := by
  induction l with
  | nil => simp [getopt_long, optionsOf]
  | cons arg rest ih =>
    unfold getopt_long optionsOf
    by_cases hterm : arg = "--"
    · simp [hterm]
    · rw [if_neg hterm, if_neg hterm]
      split
      · rename_i name h
        rw [isOptionElement_of_data arg _ _ h]
        simp only [if_true]
        constructor
        · intro _; simp
        · intro _; split_ifs <;> decide
      · rename_i c cs hne h
        rw [isOptionElement_of_data arg _ _ h]
        simp only [if_true]
        constructor
        · intro _; simp
        · intro _; split_ifs <;> decide
      · rename_i h1 h2
        have hno : isOptionElement arg = false := by
          unfold isOptionElement
          split
          · rename_i c cs h
            by_cases hc : c = '-'
            · subst hc
              exact absurd h (h1 cs)
            · exact absurd h (h2 c cs)
          · rfl
        rw [hno]
        simpa using ih

theorem nonOptionsOf_eq_self (l : List String) (hterm : "--" ∉ l) (hopt : optionsOf l = []) :
    nonOptionsOf l = l := by
  induction l with
  | nil => rfl
  | cons arg rest ih =>
    have harg : arg ≠ "--" := fun h => hterm (h ▸ List.mem_cons_self _ _)
    have hrest : "--" ∉ rest := fun h => hterm (List.mem_cons_of_mem _ h)
    unfold optionsOf at hopt
    unfold nonOptionsOf
    rw [if_neg harg] at hopt ⊢
    cases helem : isOptionElement arg with
    | true => simp [helem] at hopt
    | false =>
      simp only [helem] at hopt
      simp only [Bool.false_eq_true, if_false] at hopt ⊢
      rw [ih hrest hopt]

/-- Away from the end-of-options marker the program does what its usage text says. -/
theorem main_eq_usageText (arguments : List String) (hterm : "--" ∉ arguments.drop 1) :
    main arguments = usageText arguments := by
  unfold main usageText
  dsimp only
  by_cases hopt : getopt_long (arguments.drop 1) ≠ -1
  · rw [if_pos hopt]
    have hne := (getopt_long_ne_iff _).1 hopt
    split
    · rename_i h _
      exact absurd h hne
    · rename_i h _
      exact absurd h hne
    · rfl
  · rw [if_neg hopt]
    have hnil : optionsOf (arguments.drop 1) = [] := by
      by_contra h
      exact hopt ((getopt_long_ne_iff _).2 h)
    have hsame := nonOptionsOf_eq_self _ hterm hnil
    rw [hnil, hsame]
    match arguments with
    | [] => rfl
    | [_] => rfl
    | [_, p] => rfl
    | _ :: _ :: _ :: rest =>
      simp only [List.drop_succ_cons, List.drop_zero, List.length_cons]
      rw [if_pos (by push_cast; omega)]

/-- C12, on the code: the end-of-options marker `--`, which `getopt_long` consumes
without reporting an option, is counted by line 55 as a non-option argument.  For
`tudat --` the usage text promises the empty input path (no path given), and the
program takes `--` for the input path; for `tudat -- main.json` the usage text promises
the input path `main.json`, and the program prints the usage and exits. -/
theorem end_of_options_marker_is_counted :
    main ["tudat", "--"] = Outcome.simulation "--" ∧
    usageText ["tudat", "--"] = Outcome.simulation "" ∧
    main ["tudat", "--", "main.json"] = Outcome.usage ∧
    usageText ["tudat", "--", "main.json"] = Outcome.simulation "main.json" := by
  decide

end Tudat
